import Mathlib

/-!
# Verification of the SBC-Core vehicle telemetry and alerting subsystem

Shallow embedding of the core coordination logic of the repository:

* `pages/db_manager.py` (`VehicleDBManager`): the persistence store over the
  SQLite tables `vehicles`, `trips`, `readings`, `alert_rules`, `alerts`.
* `pages/vehicle_page.py` (`AlertManager`): rule-based alert evaluation with
  edge triggering, and the alert banner logic.
* `pages/vehicle_page.py` (`VehiclePage`): the telemetry coordinator state
  machine (connection lifecycle, trip lifecycle, reading callbacks).

Machine values (timestamps, thresholds, telemetry magnitudes) are modelled as
rationals; SQLite row ids as naturals.  The committed database state is the
observable state: a statement that commits is visible, and an operation whose
exception is caught before its commit leaves the committed state unchanged at
the moment it returns.  Where the code leaves a transaction open without
rolling it back (`prune_old_data`'s except handler), the pending uncommitted
writes are modelled explicitly, since the next `commit()` on the shared
connection publishes them.
-/

namespace SBC

/-! ## Data model (tables of `db_manager.py`, §`_create_tables`) -/

/-- Row of the `vehicles` table: `id, vin (UNIQUE), name`. -/
structure Vehicle where
  id : Nat
  vin : String
  name : String
deriving DecidableEq

/-- Row of the `trips` table: `id, vehicle_id, start_time, end_time (nullable)`. -/
structure Trip where
  id : Nat
  vehicleId : Nat
  startTime : Rat
  endTime : Option Rat
deriving DecidableEq

/-- Row of the `readings` table: `id, trip_id, timestamp, command, value, unit`.
The `value` column is text (`str(value)` in `log_reading`). -/
structure Reading where
  id : Nat
  tripId : Nat
  timestamp : Rat
  command : String
  value : String
  unit : Option String
deriving DecidableEq

/-- Row of the `alert_rules` table:
`id, vehicle_id, command, condition, value, severity, is_enabled`. -/
structure AlertRule where
  id : Nat
  vehicleId : Nat
  command : String
  condition : String
  value : Rat
  severity : String
  isEnabled : Bool
deriving DecidableEq

/-- Row of the `alerts` table (alert events):
`id, trip_id, rule_id, timestamp, triggered_value`. -/
structure AlertRow where
  id : Nat
  tripId : Nat
  ruleId : Nat
  timestamp : Rat
deriving DecidableEq

/-- The committed database state, together with the `AUTOINCREMENT`
counters of each table. -/
structure DB where
  vehicles : List Vehicle
  trips : List Trip
  readings : List Reading
  alertRules : List AlertRule
  alerts : List AlertRow
  nextVehicleId : Nat
  nextTripId : Nat
  nextReadingId : Nat
  nextAlertId : Nat
deriving DecidableEq

/-! ## Alert Evaluator (`AlertManager` in `vehicle_page.py`)

`check_value(command_name, response)` returns immediately when the response is
null or no trip is being logged; otherwise it walks `self.rules` and, for each
rule whose `command` matches, computes `is_triggered` from the rule's
`condition` string and edge-triggers: rising edge adds the rule id to
`active_alerts`, emits one raised notification and persists one alert event
(`trigger_alert`); falling edge removes the id and emits one cleared
notification (`clear_alert`). -/

/-- UI notification emitted by `trigger_alert` / `clear_alert`. -/
inductive AlertUIEvent where
  | raised (ruleId : Nat) (severity : String) (value : Rat)
  | cleared (ruleId : Nat)
deriving DecidableEq

/-- The rule id an event is about. -/
def eventRuleId : AlertUIEvent → Nat
  | .raised i _ _ => i
  | .cleared i => i

/-- Alert event persisted by `trigger_alert` via `db_manager.log_alert`. -/
structure AlertEventRow where
  tripId : Nat
  ruleId : Nat
  triggeredValue : Rat
deriving DecidableEq

/-- `is_triggered` computation in `AlertManager.check_value`: dispatch on the
condition string over `(value, rule value)`; any other string never triggers. -/
def isTriggered (condition : String) (value ruleVal : Rat) : Bool :=
  if condition = ">" then decide (value > ruleVal)
  else if condition = "<" then decide (value < ruleVal)
  else if condition = "=" then decide (value = ruleVal)
  else false

/-- Accumulator of one `check_value` call: the evolving active set, the UI
notifications emitted so far, and the alert events persisted so far. -/
structure AlertCheckOut where
  activeAlerts : Finset Nat
  events : List AlertUIEvent
  persisted : List AlertEventRow
deriving DecidableEq

/-- Body of the `for rule in self.rules` loop of `check_value` for one rule. -/
def checkRuleStep (commandName : String) (value : Rat) (tripId : Nat)
    (acc : AlertCheckOut) (rule : AlertRule) : AlertCheckOut :=
  if rule.command = commandName then
    let trig := isTriggered rule.condition value rule.value
    if trig = true ∧ rule.id ∉ acc.activeAlerts then
      { activeAlerts := insert rule.id acc.activeAlerts,
        events := acc.events ++ [AlertUIEvent.raised rule.id rule.severity value],
        persisted := acc.persisted ++ [⟨tripId, rule.id, value⟩] }
    else if ¬ trig = true ∧ rule.id ∈ acc.activeAlerts then
      { activeAlerts := acc.activeAlerts.erase rule.id,
        events := acc.events ++ [AlertUIEvent.cleared rule.id],
        persisted := acc.persisted }
    else acc
  else acc

/-- State of an `AlertManager`: the loaded rule snapshot and the active set. -/
structure AlertManagerState where
  rules : List AlertRule
  activeAlerts : Finset Nat
deriving DecidableEq

/-- `AlertManager.check_value`.  A null response (`none`) or an inactive trip
flag is a no-op; otherwise every loaded rule is processed in order. -/
def check_value (st : AlertManagerState) (isLoggingTrip : Bool) (tripId : Nat)
    (commandName : String) (response : Option Rat) :
    AlertManagerState × List AlertUIEvent × List AlertEventRow :=
  match response with
  | none => (st, [], [])
  | some value =>
      if isLoggingTrip = true then
        let out := st.rules.foldl (checkRuleStep commandName value tripId)
          ⟨st.activeAlerts, [], []⟩
        ({ st with activeAlerts := out.activeAlerts }, out.events, out.persisted)
      else (st, [], [])

/-! ### Per-rule decomposition of one `check_value` pass

`ruleActive`, `ruleEvent` and `rulePersist` describe the effect of the loop
body on each component separately; since rule ids are unique in the database,
the sequential loop acts on each rule independently of the others. -/

/-- Effect of the loop body of `check_value` on the active set. -/
def ruleActive (commandName : String) (value : Rat) (A : Finset Nat)
    (rule : AlertRule) : Finset Nat :=
  if rule.command = commandName then
    let trig := isTriggered rule.condition value rule.value
    if trig = true ∧ rule.id ∉ A then insert rule.id A
    else if ¬ trig = true ∧ rule.id ∈ A then A.erase rule.id
    else A
  else A

/-- UI notification emitted by the loop body of `check_value` for one rule. -/
def ruleEvent (commandName : String) (value : Rat) (A : Finset Nat)
    (rule : AlertRule) : Option AlertUIEvent :=
  if rule.command = commandName then
    let trig := isTriggered rule.condition value rule.value
    if trig = true ∧ rule.id ∉ A then
      some (AlertUIEvent.raised rule.id rule.severity value)
    else if ¬ trig = true ∧ rule.id ∈ A then some (AlertUIEvent.cleared rule.id)
    else none
  else none

/-- Alert event persisted by the loop body of `check_value` for one rule. -/
def rulePersist (commandName : String) (value : Rat) (tripId : Nat)
    (A : Finset Nat) (rule : AlertRule) : Option AlertEventRow :=
  if rule.command = commandName then
    let trig := isTriggered rule.condition value rule.value
    if trig = true ∧ rule.id ∉ A then some ⟨tripId, rule.id, value⟩
    else none
  else none

/-! ## Alert banner (`VehiclePage.show_alert_banner` / `hide_alert_banner`,
`AlertManager.clear_alert` / `reset`)

`hide_alert_banner` removes the banner from the grid only when the manager's
`active_alerts` set is empty; otherwise the banner stays as it is.
`AlertManager.reset` clears the active set and then calls the hide path. -/

/-- `VehiclePage.hide_alert_banner`: the banner becomes hidden only if the
active-alert set is empty; otherwise its visibility is unchanged. -/
def hide_alert_banner (activeAlerts : Finset Nat) (bannerShown : Bool) : Bool :=
  if activeAlerts = ∅ then false else bannerShown

/-- `AlertManager.reset`: clear `active_alerts`, then run the hide path.
Returns the new `(active_alerts, bannerShown)` pair. -/
def alert_manager_reset (bannerShown : Bool) : Finset Nat × Bool :=
  ((∅ : Finset Nat), hide_alert_banner (∅ : Finset Nat) bannerShown)

/-! ## Persistence store (`VehicleDBManager` in `db_manager.py`)

Every operation commits per call.  A caught `sqlite3.Error` is modelled by a
failure flag (or failure-step index): on failure the committed database is
unchanged, matching the code where the exception is raised before the
`commit` for that call. -/

/-- `add_or_get_vehicle(vin, name)`: return the existing row id for `vin`, or
insert a new row and return its id; `-1` on a storage error. -/
def add_or_get_vehicle (db : DB) (vin name : String) (fail : Bool) : DB × Int :=
  if fail then (db, -1)
  else
    match db.vehicles.find? (fun v => v.vin == vin) with
    | some v => (db, (v.id : Int))
    | none =>
        ({ db with
            vehicles := db.vehicles ++ [⟨db.nextVehicleId, vin, name⟩]
            nextVehicleId := db.nextVehicleId + 1 }, (db.nextVehicleId : Int))

/-- A sequence of `add_or_get_vehicle` calls with one `vin` and varying
names, collecting the returned ids (no storage failures). -/
def upsertSeq (db : DB) (vin : String) : List String → DB × List Int
  | [] => (db, [])
  | name :: rest =>
      let first := add_or_get_vehicle db vin name false
      let restOut := upsertSeq first.1 vin rest
      (restOut.1, first.2 :: restOut.2)

/-- The rows of the `vehicles` table holding a given VIN. -/
def vinRows (db : DB) (vin : String) : List Vehicle :=
  db.vehicles.filter (fun v => v.vin == vin)

/-- `start_trip(vehicle_id)`: insert a trip with `start_time = now`,
`end_time = NULL`, returning the new trip id. -/
def start_trip (db : DB) (vehicleId : Nat) (now : Rat) : DB × Nat :=
  ({ db with
      trips := db.trips ++ [⟨db.nextTripId, vehicleId, now, none⟩]
      nextTripId := db.nextTripId + 1 }, db.nextTripId)

/-- `end_trip(trip_id)`: `UPDATE trips SET end_time = now WHERE id = trip_id`. -/
def end_trip (db : DB) (tripId : Nat) (now : Rat) : DB :=
  { db with
    trips := db.trips.map
      (fun t => if t.id = tripId then { t with endTime := some now } else t) }

/-- `log_reading(trip_id, command, value, unit)`: best-effort insert of one
reading row. -/
def log_reading (db : DB) (tripId : Nat) (now : Rat) (command value : String)
    (unit : Option String) : DB :=
  { db with
    readings := db.readings ++ [⟨db.nextReadingId, tripId, now, command, value, unit⟩]
    nextReadingId := db.nextReadingId + 1 }

/-- `log_alert(trip_id, rule_id, triggered_value)`: insert one alert-event
row. -/
def log_alert (db : DB) (tripId ruleId : Nat) (now : Rat) : DB :=
  { db with
    alerts := db.alerts ++ [⟨db.nextAlertId, tripId, ruleId, now⟩]
    nextAlertId := db.nextAlertId + 1 }

/-- Ordering used by `get_alert_rules` (`ORDER BY command`). -/
def cmdLe (a b : AlertRule) : Prop := a.command ≤ b.command

instance : DecidableRel cmdLe := fun a b =>
  inferInstanceAs (Decidable (a.command ≤ b.command))

instance : IsTotal AlertRule cmdLe := ⟨fun a b => le_total a.command b.command⟩

instance : IsTrans AlertRule cmdLe := ⟨fun _ _ _ h₁ h₂ => le_trans h₁ h₂⟩

/-- `get_alert_rules(vehicle_id)`: the enabled rules of the vehicle, ordered
by command. -/
def get_alert_rules (db : DB) (vehicleId : Nat) : List AlertRule :=
  (db.alertRules.filter
    (fun r => r.vehicleId == vehicleId && r.isEnabled)).insertionSort cmdLe

/-- Ascending timestamp order on readings (`ORDER BY timestamp`). -/
def tsAsc (a b : Reading) : Prop := a.timestamp ≤ b.timestamp

instance : DecidableRel tsAsc := fun a b =>
  inferInstanceAs (Decidable (a.timestamp ≤ b.timestamp))

instance : IsTotal Reading tsAsc := ⟨fun a b => le_total a.timestamp b.timestamp⟩

instance : IsTrans Reading tsAsc := ⟨fun _ _ _ h₁ h₂ => le_trans h₁ h₂⟩

/-- Descending timestamp order on readings (`ORDER BY timestamp DESC`). -/
def tsDesc (a b : Reading) : Prop := b.timestamp ≤ a.timestamp

instance : DecidableRel tsDesc := fun a b =>
  inferInstanceAs (Decidable (b.timestamp ≤ a.timestamp))

instance : IsTotal Reading tsDesc := ⟨fun a b => le_total b.timestamp a.timestamp⟩

instance : IsTrans Reading tsDesc := ⟨fun _ _ _ h₁ h₂ => le_trans h₂ h₁⟩

/-- `get_trip_readings(trip_id)`: `SELECT ... WHERE trip_id = ? ORDER BY
timestamp DESC LIMIT 200` — the (at most) 200 most recent readings of the
trip, most recent first. -/
def get_trip_readings (db : DB) (tripId : Nat) : List Reading :=
  ((db.readings.filter (fun r => r.tripId == tripId)).insertionSort tsDesc).take 200

/-- Header row written by `export_trip_to_csv`. -/
def csvHeader : String := "timestamp,command,value,unit"

/-- One data row of the export: the timestamp rendered through `fmt`
(`time.strftime('%Y-%m-%d %H:%M:%S', time.localtime(...))` in the code,
treated as an opaque rendering), then command, value and unit (empty when
`NULL`). -/
def renderReadingRow (fmt : Rat → String) (r : Reading) : String :=
  fmt r.timestamp ++ "," ++ r.command ++ "," ++ r.value ++ "," ++ r.unit.getD ""

/-- Outcome of `export_trip_to_csv`: no file opened, a failed write leaving a
partial file, or a completely written file. -/
inductive ExportResult where
  | noFile
  | failed (written : List String)
  | written (lines : List String)
deriving DecidableEq

/-- The boolean returned by `export_trip_to_csv`. -/
def ExportResult.success : ExportResult → Bool
  | .written _ => true
  | _ => false

/-- `export_trip_to_csv(trip_id, output_path)`: select the trip's readings
ascending by timestamp; with no rows return `False` before opening any file;
otherwise write the header line and one line per reading.  `ioFailAfter =
some k` models an `IOError` after `k` lines were written (the function then
returns `False`). -/
def export_trip_to_csv (db : DB) (tripId : Nat) (fmt : Rat → String)
    (ioFailAfter : Option Nat) : ExportResult :=
  let rows := (db.readings.filter (fun r => r.tripId == tripId)).insertionSort tsAsc
  if rows.isEmpty then ExportResult.noFile
  else
    let lines := csvHeader :: rows.map (renderReadingRow fmt)
    match ioFailAfter with
    | some k => ExportResult.failed (lines.take k)
    | none => ExportResult.written lines

/-- `time.time() - days_to_keep * 86400` in `prune_old_data`. -/
def cutoffTime (now : Rat) (daysToKeep : Nat) : Rat :=
  now - (daysToKeep : Rat) * 86400

/-- Ids of the trips with `start_time < cutoff` (the SELECT of
`prune_old_data`). -/
def oldTripIds (db : DB) (cutoff : Rat) : List Nat :=
  (db.trips.filter (fun t => decide (t.startTime < cutoff))).map Trip.id

/-- `prune_old_data(days_to_keep)`.  The three DELETE statements run inside
one implicit transaction, committed at the end; `failAt = some k` models a
`sqlite3.Error` raised at step `k` (0 SELECT, 1 DELETE readings, 2 DELETE
alerts, 3 DELETE trips, 4 COMMIT).  The exception is caught and nothing was
committed yet, so the committed database this function returns alongside the
counters is unchanged at that moment; the counters reflect the rowcounts
read before the failure (0 when not yet read).  The handler performs **no
rollback**, however, so the DELETEs executed before the failing step stay
pending on the shared connection: `prune_old_data_pending` models that open
transaction, and `prune_then_log_reading` the next hot-path commit that
publishes it.  Returns `(deleted trips, deleted readings)`. -/
def prune_old_data (db : DB) (now : Rat) (daysToKeep : Nat)
    (failAt : Option Nat) : DB × Nat × Nat :=
  if failAt = some 0 then (db, 0, 0)
  else
    let olds := oldTripIds db (cutoffTime now daysToKeep)
    if olds.isEmpty then (db, 0, 0)
    else
      let keptReadings := db.readings.filter (fun r => decide (r.tripId ∉ olds))
      let deletedReadings := db.readings.length - keptReadings.length
      if failAt = some 1 then (db, 0, 0)
      else if failAt = some 2 then (db, 0, deletedReadings)
      else
        let keptAlerts := db.alerts.filter (fun a => decide (a.tripId ∉ olds))
        let keptTrips := db.trips.filter (fun t => decide (t.id ∉ olds))
        let deletedTrips := db.trips.length - keptTrips.length
        if failAt = some 3 then (db, 0, deletedReadings)
        else if failAt = some 4 then (db, deletedTrips, deletedReadings)
        else
        ({ db with
            trips := keptTrips
            readings := keptReadings
            alerts := keptAlerts }, deletedTrips, deletedReadings)

/-- The open, uncommitted transaction `prune_old_data` leaves behind when a
step fails: the `except sqlite3.Error` handler issues no `rollback()`, so
every DELETE executed before the failing step stays pending on the shared
connection.  `none` when no dirty transaction is left open: failure in the
SELECT (step 0, before any implicit BEGIN), failure of the first DELETE
itself (step 1, undone by statement-level atomicity), a failed COMMIT
(step 4, ends the transaction), or success. -/
def prune_old_data_pending (db : DB) (now : Rat) (daysToKeep : Nat)
    (failAt : Option Nat) : Option DB :=
  if failAt = some 0 then none
  else
    let olds := oldTripIds db (cutoffTime now daysToKeep)
    if olds.isEmpty then none
    else
      let keptReadings := db.readings.filter (fun r => decide (r.tripId ∉ olds))
      if failAt = some 1 then none
      else if failAt = some 2 then some { db with readings := keptReadings }
      else
        let keptAlerts := db.alerts.filter (fun a => decide (a.tripId ∉ olds))
        if failAt = some 3 then
          some { db with
            readings := keptReadings
            alerts := keptAlerts }
        else none

/-- One hot-path `log_reading` call issued on the same connection after a
prune: its INSERT joins the transaction the failed prune left open (if any)
and its `self.conn.commit()` commits everything pending, publishing the
partial DELETEs.  Returns the committed database after that commit. -/
def prune_then_log_reading (db : DB) (now : Rat) (daysToKeep : Nat)
    (failAt : Option Nat) (tripId : Nat) (ts : Rat) (command value : String)
    (unit : Option String) : DB :=
  let base := (prune_old_data_pending db now daysToKeep failAt).getD
    (prune_old_data db now daysToKeep failAt).1
  log_reading base tripId ts command value unit

/-- A concrete database with trips aged 10, 40 and 400 days relative to
`now = 43200000` (500 days), used to witness the pruning theorems. -/
def pruneDemoDB : DB :=
  { vehicles := [⟨1, "VINDEMO", "car"⟩]
    trips := [⟨1, 1, 42336000, some 42337000⟩, ⟨2, 1, 39744000, some 39745000⟩,
      ⟨3, 1, 8640000, some 8641000⟩]
    readings := [⟨1, 1, 42336100, "RPM", "800", none⟩,
      ⟨2, 2, 39744100, "RPM", "900", none⟩, ⟨3, 3, 8640100, "RPM", "1000", none⟩]
    alertRules := []
    alerts := [⟨1, 2, 2, 39744200⟩]
    nextVehicleId := 2
    nextTripId := 4
    nextReadingId := 4
    nextAlertId := 2 }

/-! ## Telemetry Coordinator (`VehiclePage` in `vehicle_page.py`)

State machine over the flags `is_connected`, `is_connecting`,
`is_logging_trip`, the selected vehicle and current trip, the loaded rules
and active alerts, the watched commands (gauge subscriptions) and the
periodic log-refresh job.  GUI-only state (widgets, textboxes, the banner —
settled separately) is omitted.  Steps carry as parameters what the
environment supplies (the clock, the VIN response, the supported commands,
whether a storage step fails). -/

structure CoordState where
  db : DB
  rules : List AlertRule
  activeAlerts : Finset Nat
  isConnected : Bool
  isConnecting : Bool
  isLoggingTrip : Bool
  hasConnection : Bool
  currentVehicleId : Option Nat
  currentTripId : Option Nat
  watched : List String
  logUpdateJob : Bool
deriving DecidableEq

/-- `VehiclePage.toggle_trip_logging`: requires a selected vehicle; flips the
flag; turning on starts a Store trip and the periodic log updater, turning
off stops the updater, ends the current Store trip and resets the Alert
Evaluator. -/
def toggle_trip_logging (s : CoordState) (now : Rat) : CoordState :=
  match s.currentVehicleId with
  | none => s
  | some vid =>
      if s.isLoggingTrip = false then
        let res := start_trip s.db vid now
        { s with
          isLoggingTrip := true
          db := res.1
          currentTripId := some res.2
          logUpdateJob := true }
      else
        let db' :=
          match s.currentTripId with
          | some tid => end_trip s.db tid now
          | none => s.db
        { s with
          isLoggingTrip := false
          logUpdateJob := false
          db := db'
          activeAlerts := ∅ }

/-- `VehiclePage.disconnect_from_obd`: stop the log updater, end a logging
trip via `toggle_trip_logging`, stop and close the connection, clear the
gauges/subscriptions, reset the Alert Evaluator. -/
def disconnect_from_obd (s : CoordState) (now : Rat) : CoordState :=
  let s₁ := { s with logUpdateJob := false }
  let s₂ := if s₁.isLoggingTrip = true then toggle_trip_logging s₁ now else s₁
  { s₂ with
    hasConnection := false
    isConnected := false
    isConnecting := false
    watched := []
    activeAlerts := ∅ }

/-- `VehiclePage.on_successful_connection` (runs once connected): query the
VIN; if present, resolve/create the Vehicle via the Store and select it
(loading its alert rules); create the gauges and per-command subscriptions;
if a vehicle is selected, auto-start a trip. -/
def on_successful_connection (s : CoordState) (vinFound : Option String)
    (supported : List String) (now : Rat) : CoordState :=
  let s₁ :=
    match vinFound with
    | none => s
    | some vin =>
        let res := add_or_get_vehicle s.db vin ("Vehicle-" ++ vin.takeRight 4) false
        let vid := res.2.toNat
        { s with
          db := res.1
          currentVehicleId := some vid
          rules := get_alert_rules res.1 vid }
  let s₂ := { s₁ with watched := supported }
  match s₂.currentVehicleId with
  | some _ => toggle_trip_logging s₂ now
  | none => s₂

/-- The per-command gauge callback (`gauge_callback_factory`): a null
response does nothing; otherwise the reading is logged (only while a trip is
active with a known id) and the Alert Evaluator runs, persisting the alert
events it produced. -/
def on_reading (s : CoordState) (cmd : String) (value : Option Rat)
    (unit : Option String) (now : Rat) : CoordState :=
  match value with
  | none => s
  | some v =>
      let s₁ :=
        if s.isLoggingTrip = true then
          match s.currentTripId with
          | some tid => { s with db := log_reading s.db tid now cmd (toString v) unit }
          | none => s
        else s
      let out := check_value ⟨s₁.rules, s₁.activeAlerts⟩ s₁.isLoggingTrip
        (s₁.currentTripId.getD 0) cmd (some v)
      let db₂ := out.2.2.foldl (fun d p => log_alert d p.tripId p.ruleId now) s₁.db
      { s₁ with db := db₂, activeAlerts := out.1.activeAlerts }

/-- The externally triggered operations of the coordinator.  UI-gated
operations carry their enablement guard from `_update_ui_state`:
the vehicle dropdown and the connect path are enabled only while neither
connected nor connecting, the trip button only while connected and not busy
(internal calls also toggle a logging trip off). -/
inductive Step where
  | selectVehicle (vid : Nat)
  | connectOk (vinFound : Option String) (supported : List String) (now : Rat)
  | connectFail (connAssigned : Bool)
  | toggleTrip (now : Rat)
  | disconnect (now : Rat)
  | reading (cmd : String) (value : Option Rat) (unit : Option String) (now : Rat)
  | pruneData (now : Rat) (days : Nat) (failAt : Option Nat)
  | onHide (now : Rat)

/-- One coordinator transition. -/
def stepFn (s : CoordState) : Step → CoordState
  | .selectVehicle vid =>
      if s.isConnected || s.isConnecting then s
      else if s.db.vehicles.any (fun v => v.id == vid) then
        { s with currentVehicleId := some vid, rules := get_alert_rules s.db vid }
      else s
  | .connectOk vinFound supported now =>
      if s.isConnecting || s.isConnected then s
      else on_successful_connection
        { s with isConnected := true, isConnecting := false, hasConnection := true }
        vinFound supported now
  | .connectFail connAssigned =>
      if s.isConnecting || s.isConnected then s
      else { s with isConnecting := false, hasConnection := connAssigned }
  | .toggleTrip now =>
      if (s.isConnected && !s.isConnecting) || s.isLoggingTrip then
        toggle_trip_logging s now
      else s
  | .disconnect now => disconnect_from_obd s now
  | .reading cmd v u now => on_reading s cmd v u now
  | .pruneData now days failAt =>
      { s with db := (prune_old_data s.db now days failAt).1 }
  | .onHide now =>
      let s₁ := { s with logUpdateJob := false }
      let s₂ := if s₁.isLoggingTrip = true then toggle_trip_logging s₁ now else s₁
      disconnect_from_obd s₂ now

/-- The freshly constructed page: disconnected, no trip, nothing watched.
(The constructor's initial profile auto-selection is reached by a
`selectVehicle` step from here.) -/
def initState (db0 : DB) : CoordState :=
  { db := db0
    rules := []
    activeAlerts := ∅
    isConnected := false
    isConnecting := false
    isLoggingTrip := false
    hasConnection := false
    currentVehicleId := none
    currentTripId := none
    watched := []
    logUpdateJob := false }

/-- Coordinator states reachable from a freshly opened page whose database
has no dangling open trip (every trip closed, distinct ids below the
counter). -/
inductive Reachable (db0 : DB) : CoordState → Prop where
  | init :
      (∀ t ∈ db0.trips, t.endTime ≠ none) →
      (db0.trips.map Trip.id).Nodup →
      (∀ t ∈ db0.trips, t.id < db0.nextTripId) →
      Reachable db0 (initState db0)
  | step {s : CoordState} (st : Step) : Reachable db0 s → Reachable db0 (stepFn s st)

/-- Coordinator invariant: a logging trip implies a connection and a selected
vehicle; any open trip in the store is the coordinator's current trip while
logging; trip ids are distinct and below the id counter. -/
def Inv (s : CoordState) : Prop :=
  (s.isLoggingTrip = true → s.isConnected = true ∧ s.currentVehicleId ≠ none) ∧
  (∀ t ∈ s.db.trips, t.endTime = none →
      s.isLoggingTrip = true ∧ s.currentTripId = some t.id) ∧
  (s.db.trips.map Trip.id).Nodup ∧
  (∀ t ∈ s.db.trips, t.id < s.db.nextTripId)

/-- A one-vehicle database with no trips, used to witness the coordinator
theorems. -/
def coordDemoDB : DB := ⟨[⟨1, "VINX", "car"⟩], [], [], [], [], 2, 1, 1, 1⟩

lemma checkRuleStep_eq (commandName : String) (value : Rat) (tripId : Nat)
    (acc : AlertCheckOut) (rule : AlertRule) :
    checkRuleStep commandName value tripId acc rule =
      ⟨ruleActive commandName value acc.activeAlerts rule,
       acc.events ++ (ruleEvent commandName value acc.activeAlerts rule).toList,
       acc.persisted ++
         (rulePersist commandName value tripId acc.activeAlerts rule).toList⟩ := by
  simp only [checkRuleStep, ruleActive, ruleEvent, rulePersist]
  split_ifs <;> simp

lemma mem_ruleActive_of_ne (commandName : String) (value : Rat) (A : Finset Nat)
    (rule : AlertRule) (x : Nat) (hx : x ≠ rule.id) :
    x ∈ ruleActive commandName value A rule ↔ x ∈ A := by
  simp only [ruleActive]
  split_ifs <;> simp [Finset.mem_insert, Finset.mem_erase, hx]

lemma mem_ruleActive_self (commandName : String) (value : Rat) (A : Finset Nat)
    (rule : AlertRule) (hc : rule.command = commandName) :
    rule.id ∈ ruleActive commandName value A rule ↔
      isTriggered rule.condition value rule.value = true := by
  simp only [ruleActive, hc, if_true]
  by_cases ht : isTriggered rule.condition value rule.value = true <;>
    by_cases hm : rule.id ∈ A <;> simp [ht, hm]

lemma ruleEvent_congr (commandName : String) (value : Rat) (A B : Finset Nat)
    (rule : AlertRule) (h : rule.id ∈ A ↔ rule.id ∈ B) :
    ruleEvent commandName value A rule = ruleEvent commandName value B rule := by
  by_cases hm : rule.id ∈ A
  · have hm' : rule.id ∈ B := h.mp hm
    simp [ruleEvent, hm, hm']
  · have hm' : rule.id ∉ B := fun hb => hm (h.mpr hb)
    simp [ruleEvent, hm, hm']

lemma rulePersist_congr (commandName : String) (value : Rat) (tripId : Nat)
    (A B : Finset Nat) (rule : AlertRule) (h : rule.id ∈ A ↔ rule.id ∈ B) :
    rulePersist commandName value tripId A rule =
      rulePersist commandName value tripId B rule := by
  by_cases hm : rule.id ∈ A
  · have hm' : rule.id ∈ B := h.mp hm
    simp [rulePersist, hm, hm']
  · have hm' : rule.id ∉ B := fun hb => hm (h.mpr hb)
    simp [rulePersist, hm, hm']

/-- A list of rules with pairwise-distinct ids maps ids injectively. -/
lemma nodup_map_inj {α β : Type} (f : α → β) :
    ∀ (l : List α), (l.map f).Nodup →
      ∀ a ∈ l, ∀ b ∈ l, f a = f b → a = b
  | [], _, a, ha, _, _, _ => absurd ha (List.not_mem_nil a)
  | c :: t, hnd, a, ha, b, hb, hfab => by
      have hc : f c ∉ t.map f := (List.nodup_cons.mp hnd).1
      have ht : (t.map f).Nodup := (List.nodup_cons.mp hnd).2
      rcases List.mem_cons.mp ha with ha' | ha' <;>
        rcases List.mem_cons.mp hb with hb' | hb'
      · rw [ha', hb']
      · exfalso
        apply hc
        have hmem : f b ∈ t.map f := List.mem_map_of_mem f hb'
        rwa [← hfab, ha'] at hmem
      · exfalso
        apply hc
        have hmem : f a ∈ t.map f := List.mem_map_of_mem f ha'
        rwa [hfab, hb'] at hmem
      · exact nodup_map_inj f t ht a ha' b hb' hfab

lemma foldl_ruleActive_mem_of_ne (commandName : String) (value : Rat) (x : Nat) :
    ∀ (l : List AlertRule) (A : Finset Nat), (∀ r ∈ l, x ≠ r.id) →
      (x ∈ l.foldl (ruleActive commandName value) A ↔ x ∈ A)
  | [], _, _ => Iff.rfl
  | a :: t, A, h => by
      rw [List.foldl_cons]
      rw [foldl_ruleActive_mem_of_ne commandName value x t _
        (fun r hr => h r (List.mem_cons_of_mem a hr))]
      exact mem_ruleActive_of_ne commandName value A a x (h a (List.mem_cons_self a t))

/-- The decomposition: with pairwise-distinct rule ids, one pass of the
`check_value` loop appends exactly the per-rule events and persisted rows
computed against the initial active set. -/
lemma foldl_checkRuleStep_eq (commandName : String) (value : Rat) (tripId : Nat) :
    ∀ (l : List AlertRule) (A : Finset Nat) (es : List AlertUIEvent)
      (ps : List AlertEventRow), (l.map AlertRule.id).Nodup →
      l.foldl (checkRuleStep commandName value tripId) ⟨A, es, ps⟩ =
        ⟨l.foldl (ruleActive commandName value) A,
         es ++ l.filterMap (ruleEvent commandName value A),
         ps ++ l.filterMap (rulePersist commandName value tripId A)⟩
  | [], A, es, ps, _ => by simp
  | a :: t, A, es, ps, hnd => by
      have ha : a.id ∉ t.map AlertRule.id := (List.nodup_cons.mp hnd).1
      have ht : (t.map AlertRule.id).Nodup := (List.nodup_cons.mp hnd).2
      have hne : ∀ r' ∈ t, r'.id ≠ a.id := by
        intro r' hr' h
        exact ha (h ▸ List.mem_map_of_mem AlertRule.id hr')
      rw [List.foldl_cons, checkRuleStep_eq,
        foldl_checkRuleStep_eq commandName value tripId t _ _ _ ht]
      have hmemA : ∀ r' ∈ t,
          (r'.id ∈ ruleActive commandName value A a ↔ r'.id ∈ A) := fun r' hr' =>
        mem_ruleActive_of_ne commandName value A a r'.id (hne r' hr')
      have he : t.filterMap (ruleEvent commandName value
          (ruleActive commandName value A a)) =
          t.filterMap (ruleEvent commandName value A) :=
        List.filterMap_congr fun r' hr' =>
          ruleEvent_congr commandName value _ A r' (hmemA r' hr')
      have hp : t.filterMap (rulePersist commandName value tripId
          (ruleActive commandName value A a)) =
          t.filterMap (rulePersist commandName value tripId A) :=
        List.filterMap_congr fun r' hr' =>
          rulePersist_congr commandName value tripId _ A r' (hmemA r' hr')
      rw [he, hp]
      have hev : (ruleEvent commandName value A a).toList ++
          t.filterMap (ruleEvent commandName value A) =
          (a :: t).filterMap (ruleEvent commandName value A) := by
        cases h : ruleEvent commandName value A a <;>
          simp [List.filterMap_cons, h]
      have hpv : (rulePersist commandName value tripId A a).toList ++
          t.filterMap (rulePersist commandName value tripId A) =
          (a :: t).filterMap (rulePersist commandName value tripId A) := by
        cases h : rulePersist commandName value tripId A a <;>
          simp [List.filterMap_cons, h]
      rw [List.append_assoc, List.append_assoc, hev, hpv]
      rfl

/-- Final active-set membership for a matching rule: the rule id is in the
active set after the pass iff its condition triggered on this value. -/
lemma mem_foldl_ruleActive (commandName : String) (value : Rat) :
    ∀ (l : List AlertRule) (A : Finset Nat) (r : AlertRule),
      (l.map AlertRule.id).Nodup → r ∈ l → r.command = commandName →
      (r.id ∈ l.foldl (ruleActive commandName value) A ↔
        isTriggered r.condition value r.value = true)
  | [], _, r, _, hr, _ => absurd hr (List.not_mem_nil r)
  | a :: t, A, r, hnd, hr, hc => by
      have ha : a.id ∉ t.map AlertRule.id := (List.nodup_cons.mp hnd).1
      have ht : (t.map AlertRule.id).Nodup := (List.nodup_cons.mp hnd).2
      rw [List.foldl_cons]
      rcases List.mem_cons.mp hr with hr' | hr'
      · subst hr'
        have hnotin : ∀ r' ∈ t, r.id ≠ r'.id := by
          intro r' hr'' h
          exact ha (h ▸ List.mem_map_of_mem AlertRule.id hr'')
        rw [foldl_ruleActive_mem_of_ne commandName value r.id t _ hnotin]
        exact mem_ruleActive_self commandName value A r hc
      · exact mem_foldl_ruleActive commandName value t _ r ht hr' hc

lemma filter_filterMap_nil {α β : Type} (f : α → Option β) (p : β → Bool) :
    ∀ l : List α, (∀ a ∈ l, ∀ e, f a = some e → p e = false) →
      (l.filterMap f).filter p = []
  | [], _ => rfl
  | a :: t, h => by
      have ht := filter_filterMap_nil f p t
        (fun b hb => h b (List.mem_cons_of_mem a hb))
      cases hfa : f a with
      | none => rw [List.filterMap_cons, hfa]; exact ht
      | some e =>
          rw [List.filterMap_cons, hfa, List.filter_cons,
            h a (List.mem_cons_self a t) e hfa]
          exact ht

/-- If exactly one rule of the (id-distinct) list produces a `p`-selected
output under `f`, the selected outputs are exactly that one output. -/
lemma filter_filterMap_single {β : Type} (f : AlertRule → Option β) (p : β → Bool)
    (e₀ : β) (r : AlertRule) :
    ∀ l : List AlertRule, r ∈ l → (l.map AlertRule.id).Nodup →
      f r = some e₀ → p e₀ = true →
      (∀ r' ∈ l, r'.id ≠ r.id → ∀ e, f r' = some e → p e = false) →
      (l.filterMap f).filter p = [e₀]
  | [], hr, _, _, _, _ => absurd hr (List.not_mem_nil r)
  | a :: t, hr, hnd, hfr, hpe, hother => by
      have ha : a.id ∉ t.map AlertRule.id := (List.nodup_cons.mp hnd).1
      have ht : (t.map AlertRule.id).Nodup := (List.nodup_cons.mp hnd).2
      by_cases hid : a.id = r.id
      · have har : a = r := by
          rcases List.mem_cons.mp hr with hr' | hr'
          · rw [hr']
          · exact absurd (hid ▸ List.mem_map_of_mem AlertRule.id hr') ha
        subst har
        rw [List.filterMap_cons, hfr, List.filter_cons, hpe]
        have : (t.filterMap f).filter p = [] := by
          refine filter_filterMap_nil f p t (fun b hb e hbe => ?_)
          have hbid : b.id ≠ a.id := by
            intro h
            exact ha (h ▸ List.mem_map_of_mem AlertRule.id hb)
          exact hother b (List.mem_cons_of_mem a hb) hbid e hbe
        rw [this]
        simp
      · have hrt : r ∈ t := by
          rcases List.mem_cons.mp hr with hr' | hr'
          · exact absurd (congrArg AlertRule.id hr'.symm) hid
          · exact hr'
        have htail := filter_filterMap_single f p e₀ r t hrt ht hfr hpe
          (fun r' hr' h e he => hother r' (List.mem_cons_of_mem a hr') h e he)
        cases hfa : f a with
        | none => rw [List.filterMap_cons, hfa]; exact htail
        | some e =>
            rw [List.filterMap_cons, hfa, List.filter_cons,
              hother a (List.mem_cons_self a t) hid e hfa]
            exact htail

lemma foldl_eq_self {α β : Type} (g : β → α → β) :
    ∀ (l : List α) (A : β), (∀ x ∈ l, g A x = A) → l.foldl g A = A
  | [], _, _ => rfl
  | a :: t, A, h => by
      rw [List.foldl_cons, h a (List.mem_cons_self a t)]
      exact foldl_eq_self g t A (fun x hx => h x (List.mem_cons_of_mem a hx))

lemma list_filterMap_eq_nil {α β : Type} (f : α → Option β) :
    ∀ l : List α, (∀ a ∈ l, f a = none) → l.filterMap f = []
  | [], _ => rfl
  | a :: t, h => by
      rw [List.filterMap_cons, h a (List.mem_cons_self a t)]
      exact list_filterMap_eq_nil f t (fun b hb => h b (List.mem_cons_of_mem a hb))

lemma eventRuleId_ruleEvent (commandName : String) (value : Rat) (A : Finset Nat)
    (rule : AlertRule) (e : AlertUIEvent)
    (h : ruleEvent commandName value A rule = some e) : eventRuleId e = rule.id := by
  simp only [ruleEvent] at h
  split_ifs at h
  all_goals first
  | exact Option.noConfusion h
  | (injection h with h; subst h; rfl)

lemma ruleId_rulePersist (commandName : String) (value : Rat) (tripId : Nat)
    (A : Finset Nat) (rule : AlertRule) (p : AlertEventRow)
    (h : rulePersist commandName value tripId A rule = some p) :
    p.ruleId = rule.id := by
  simp only [rulePersist] at h
  split_ifs at h
  all_goals first
  | exact Option.noConfusion h
  | (injection h with h; subst h; rfl)

lemma ruleActive_eq_self (commandName : String) (value : Rat) (A : Finset Nat)
    (q : AlertRule)
    (h : q.command = commandName →
      (q.id ∈ A ↔ isTriggered q.condition value q.value = true)) :
    ruleActive commandName value A q = A := by
  by_cases hc : q.command = commandName
  · by_cases ht : isTriggered q.condition value q.value = true
    · have hm : q.id ∈ A := (h hc).mpr ht
      simp [ruleActive, hc, ht, hm]
    · have hm : q.id ∉ A := fun hx => ht ((h hc).mp hx)
      simp [ruleActive, hc, ht, hm]
  · simp [ruleActive, hc]

lemma ruleEvent_none_of_unchanged (commandName : String) (value : Rat)
    (A : Finset Nat) (q : AlertRule)
    (h : q.command = commandName →
      (q.id ∈ A ↔ isTriggered q.condition value q.value = true)) :
    ruleEvent commandName value A q = none := by
  by_cases hc : q.command = commandName
  · by_cases ht : isTriggered q.condition value q.value = true
    · have hm : q.id ∈ A := (h hc).mpr ht
      simp [ruleEvent, hc, ht, hm]
    · have hm : q.id ∉ A := fun hx => ht ((h hc).mp hx)
      simp [ruleEvent, hc, ht, hm]
  · simp [ruleEvent, hc]

lemma rulePersist_none_of_unchanged (commandName : String) (value : Rat)
    (tripId : Nat) (A : Finset Nat) (q : AlertRule)
    (h : q.command = commandName →
      (q.id ∈ A ↔ isTriggered q.condition value q.value = true)) :
    rulePersist commandName value tripId A q = none := by
  by_cases hc : q.command = commandName
  · by_cases ht : isTriggered q.condition value q.value = true
    · have hm : q.id ∈ A := (h hc).mpr ht
      simp [rulePersist, hc, ht, hm]
    · simp [rulePersist, hc, ht]
  · simp [rulePersist, hc]

/-- Closed form of `check_value` on a non-null response during a logged trip,
assuming pairwise-distinct rule ids. -/
lemma rulePersist_none_of_not_trig (commandName : String) (value : Rat)
    (tripId : Nat) (A : Finset Nat) (q : AlertRule)
    (ht : isTriggered q.condition value q.value = false) :
    rulePersist commandName value tripId A q = none := by
  by_cases hc : q.command = commandName <;> simp [rulePersist, hc, ht]

lemma check_value_eq (st : AlertManagerState) (tripId : Nat)
    (commandName : String) (value : Rat)
    (hnd : (st.rules.map AlertRule.id).Nodup) :
    check_value st true tripId commandName (some value) =
      ({ st with activeAlerts :=
          st.rules.foldl (ruleActive commandName value) st.activeAlerts },
       st.rules.filterMap (ruleEvent commandName value st.activeAlerts),
       st.rules.filterMap (rulePersist commandName value tripId st.activeAlerts)) := by
  have key := foldl_checkRuleStep_eq commandName value tripId st.rules
    st.activeAlerts [] [] hnd
  simp only [check_value, key]
  simp

/-- **C1.** The Alert Evaluator is edge-triggered with a trip-active
precondition: `evaluate(command, value)` is a no-op (no event, no state
change, no AlertEvent persisted) when no trip is actively logging or the
reading is null; with a trip active, for every rule matching the command, if
the rule's condition holds on `(value, threshold)` and the rule id is not in
the active set, the id is added to the active set, exactly one alert-raised
event is emitted and one AlertEvent is persisted; if the condition does not
hold and the id is in the active set, the id is removed and exactly one
alert-cleared event is emitted; a repeated evaluation with unchanged trigger
state emits no event. -/
theorem C1_alert_evaluator_edge_triggered
    (st : AlertManagerState) (tripId : Nat) (commandName : String) (value : Rat)
    (r : AlertRule)
    (hnd : (st.rules.map AlertRule.id).Nodup)
    (hr : r ∈ st.rules) (hcmd : r.command = commandName) :
    (∀ (b : Bool) (t' : Nat), check_value st b t' commandName none = (st, [], [])) ∧
    (∀ resp, check_value st false tripId commandName resp = (st, [], [])) ∧
    ((isTriggered r.condition value r.value = true ∧ r.id ∉ st.activeAlerts →
        r.id ∈ (check_value st true tripId commandName (some value)).1.activeAlerts ∧
        (check_value st true tripId commandName (some value)).2.1.filter
            (fun e => eventRuleId e == r.id) =
          [AlertUIEvent.raised r.id r.severity value] ∧
        (check_value st true tripId commandName (some value)).2.2.filter
            (fun p => p.ruleId == r.id) = [⟨tripId, r.id, value⟩]) ∧
      (isTriggered r.condition value r.value = false ∧ r.id ∈ st.activeAlerts →
        r.id ∉ (check_value st true tripId commandName (some value)).1.activeAlerts ∧
        (check_value st true tripId commandName (some value)).2.1.filter
            (fun e => eventRuleId e == r.id) = [AlertUIEvent.cleared r.id] ∧
        (check_value st true tripId commandName (some value)).2.2.filter
            (fun p => p.ruleId == r.id) = []) ∧
      ((isTriggered r.condition value r.value = true ∧ r.id ∈ st.activeAlerts) ∨
          (isTriggered r.condition value r.value = false ∧ r.id ∉ st.activeAlerts) →
        (r.id ∈ (check_value st true tripId commandName (some value)).1.activeAlerts ↔
          r.id ∈ st.activeAlerts) ∧
        (check_value st true tripId commandName (some value)).2.1.filter
            (fun e => eventRuleId e == r.id) = [] ∧
        (check_value st true tripId commandName (some value)).2.2.filter
            (fun p => p.ruleId == r.id) = []) ∧
      check_value (check_value st true tripId commandName (some value)).1 true
          tripId commandName (some value) =
        ((check_value st true tripId commandName (some value)).1, [], [])) := by
  have hcv := check_value_eq st tripId commandName value hnd
  have hchar : ∀ q ∈ st.rules, q.command = commandName →
      (q.id ∈ st.rules.foldl (ruleActive commandName value) st.activeAlerts ↔
        isTriggered q.condition value q.value = true) := fun q hq hqc =>
    mem_foldl_ruleActive commandName value st.rules st.activeAlerts q hnd hq hqc
  have hinj : ∀ a ∈ st.rules, ∀ b ∈ st.rules, a.id = b.id → a = b :=
    nodup_map_inj AlertRule.id st.rules hnd
  refine ⟨fun b t' => rfl, fun resp => by cases resp <;> rfl, ?_, ?_, ?_, ?_⟩
  · rintro ⟨htrig, hnotin⟩
    rw [hcv]
    refine ⟨(hchar r hr hcmd).mpr htrig, ?_, ?_⟩
    · refine filter_filterMap_single _ _ _ r st.rules hr hnd ?_ (by simp [eventRuleId]) ?_
      · simp [ruleEvent, hcmd, htrig, hnotin]
      · intro r' _ hne e he
        have := eventRuleId_ruleEvent commandName value st.activeAlerts r' e he
        simp [this, hne]
    · refine filter_filterMap_single _ _ _ r st.rules hr hnd ?_ (by simp) ?_
      · simp [rulePersist, hcmd, htrig, hnotin]
      · intro r' _ hne e he
        have := ruleId_rulePersist commandName value tripId st.activeAlerts r' e he
        simp [this, hne]
  · rintro ⟨htrig, hin⟩
    rw [hcv]
    refine ⟨fun hx => ?_, ?_, ?_⟩
    · have hxx := (hchar r hr hcmd).mp hx
      rw [htrig] at hxx
      exact Bool.noConfusion hxx
    · refine filter_filterMap_single _ _ _ r st.rules hr hnd ?_ (by simp [eventRuleId]) ?_
      · simp [ruleEvent, hcmd, htrig, hin]
      · intro r' _ hne e he
        have := eventRuleId_ruleEvent commandName value st.activeAlerts r' e he
        simp [this, hne]
    · refine filter_filterMap_nil _ _ st.rules ?_
      intro r' hr' e he
      by_cases hne2 : r'.id = r.id
      · have : r' = r := hinj r' hr' r hr hne2
        subst this
        rw [rulePersist_none_of_not_trig commandName value tripId st.activeAlerts r'
          htrig] at he
        exact absurd he (by simp)
      · have := ruleId_rulePersist commandName value tripId st.activeAlerts r' e he
        simp [this, hne2]
  · intro hcase
    have hsame : r.id ∈ st.activeAlerts ↔
        isTriggered r.condition value r.value = true := by
      rcases hcase with ⟨ht, hm⟩ | ⟨ht, hm⟩ <;> simp [ht, hm]
    rw [hcv]
    refine ⟨?_, ?_, ?_⟩
    · rw [hchar r hr hcmd]
      exact hsame.symm
    · refine filter_filterMap_nil _ _ st.rules ?_
      intro r' hr' e he
      by_cases hne : r'.id = r.id
      · have : r' = r := hinj r' hr' r hr hne
        subst this
        rw [ruleEvent_none_of_unchanged commandName value st.activeAlerts r'
          (fun _ => hsame)] at he
        exact absurd he (by simp)
      · have := eventRuleId_ruleEvent commandName value st.activeAlerts r' e he
        simp [this, hne]
    · refine filter_filterMap_nil _ _ st.rules ?_
      intro r' hr' e he
      by_cases hne : r'.id = r.id
      · have : r' = r := hinj r' hr' r hr hne
        subst this
        rw [rulePersist_none_of_unchanged commandName value tripId st.activeAlerts r'
          (fun _ => hsame)] at he
        exact absurd he (by simp)
      · have := ruleId_rulePersist commandName value tripId st.activeAlerts r' e he
        simp [this, hne]
  · rw [hcv]
    have hchar' : ∀ q ∈ st.rules, q.command = commandName →
        (q.id ∈ st.rules.foldl (ruleActive commandName value) st.activeAlerts ↔
          isTriggered q.condition value q.value = true) := hchar
    set A' := st.rules.foldl (ruleActive commandName value) st.activeAlerts with hA'
    have hcv' := check_value_eq { st with activeAlerts := A' } tripId commandName
      value hnd
    rw [hcv']
    have hfold : st.rules.foldl (ruleActive commandName value) A' = A' := by
      refine foldl_eq_self _ st.rules A' ?_
      intro q hq
      refine ruleActive_eq_self commandName value A' q (fun hqc => hchar' q hq hqc)
    have hev : st.rules.filterMap (ruleEvent commandName value A') = [] := by
      refine list_filterMap_eq_nil _ st.rules ?_
      intro q hq
      by_cases hqc : q.command = commandName
      · exact ruleEvent_none_of_unchanged commandName value A' q
          (fun _ => hchar' q hq hqc)
      · simp [ruleEvent, hqc]
    have hpv : st.rules.filterMap (rulePersist commandName value tripId A') = [] := by
      refine list_filterMap_eq_nil _ st.rules ?_
      intro q hq
      by_cases hqc : q.command = commandName
      · exact rulePersist_none_of_unchanged commandName value tripId A' q
          (fun _ => hchar' q hq hqc)
      · simp [rulePersist, hqc]
    rw [hfold, hev, hpv]

/-- Witness for C1: the spec's scenario, rule `{command: RPM, condition: >,
value: 3000}`, trip active, `evaluate(RPM, 4000)` emits exactly one raised
event for the rule. -/
theorem C1_alert_evaluator_edge_triggered_witness :
    (check_value ⟨[⟨1, 5, "RPM", ">", 3000, "WARNING", true⟩], ∅⟩ true 7 "RPM"
        (some 4000)).2.1.filter (fun e => eventRuleId e == 1) =
      [AlertUIEvent.raised 1 "WARNING" 4000] := by
  have h := C1_alert_evaluator_edge_triggered
    ⟨[⟨1, 5, "RPM", ">", 3000, "WARNING", true⟩], ∅⟩ 7 "RPM" 4000
    ⟨1, 5, "RPM", ">", 3000, "WARNING", true⟩ (by decide) (by decide) rfl
  exact (h.2.2.1 ⟨by decide, by decide⟩).2.1

/-! ## C2 / C9: `add_or_get_vehicle` -/

lemma filter_eq_nil_of {α : Type} (p : α → Bool) :
    ∀ l : List α, (∀ a ∈ l, p a = false) → l.filter p = []
  | [], _ => rfl
  | a :: t, h => by
      rw [List.filter_cons, h a (List.mem_cons_self a t)]
      exact filter_eq_nil_of p t (fun b hb => h b (List.mem_cons_of_mem a hb))

lemma find?_append_singleton {α : Type} (p : α → Bool) (x : α) :
    ∀ l : List α, (∀ a ∈ l, p a = false) → p x = true →
      (l ++ [x]).find? p = some x
  | [], _, hx => by simp [List.find?, hx]
  | a :: t, h, hx => by
      rw [List.cons_append, List.find?_cons, h a (List.mem_cons_self a t)]
      exact find?_append_singleton p x t
        (fun b hb => h b (List.mem_cons_of_mem a hb)) hx

/-- Once a `vin` row is present, every later call finds it and changes
nothing. -/
lemma upsertSeq_found (vin : String) (v : Vehicle) :
    ∀ (names : List String) (db : DB),
      db.vehicles.find? (fun w => w.vin == vin) = some v →
      upsertSeq db vin names = (db, names.map fun _ => (v.id : Int))
  | [], db, _ => rfl
  | n :: rest, db, h => by
      simp only [upsertSeq, add_or_get_vehicle, if_neg Bool.false_ne_true, h]
      rw [upsertSeq_found vin v rest db h]
      simp

/-- With a UNIQUE `vin` column, at most one row holds any given vin. -/
lemma vin_filter_len_le_one (vin : String) :
    ∀ l : List Vehicle, (l.map Vehicle.vin).Nodup →
      (l.filter (fun v => v.vin == vin)).length ≤ 1
  | [], _ => by simp
  | a :: t, hnd => by
      have ha : a.vin ∉ t.map Vehicle.vin := (List.nodup_cons.mp hnd).1
      have ht : (t.map Vehicle.vin).Nodup := (List.nodup_cons.mp hnd).2
      rw [List.filter_cons]
      by_cases hav : a.vin = vin
      · have : t.filter (fun v => v.vin == vin) = [] := by
          refine filter_eq_nil_of _ t (fun b hb => ?_)
          by_cases hbv : b.vin = vin
          · exact absurd (by rw [hav, ← hbv]; exact List.mem_map_of_mem Vehicle.vin hb) ha
          · simp [hbv]
        simp [hav, this]
      · have h2 := vin_filter_len_le_one vin t ht
        have hbeq : (a.vin == vin) = false := by simp [hav]
        rw [hbeq]
        simpa using h2

/-- **C2.** `upsertVehicle` is idempotent on VIN: for every sequence of
`upsertVehicle(vin, name)` calls with the same vin, the first call inserts a
new Vehicle row (when the vin was not yet present) and every call returns the
same vehicle id, and after the whole sequence exactly one Vehicle row with
that vin exists. -/
theorem C2_upsert_vehicle_idempotent (db : DB) (vin : String)
    (names : List String) (hnd : (db.vehicles.map Vehicle.vin).Nodup)
    (hne : names ≠ []) :
    ∃ i : Int,
      (upsertSeq db vin names).2 = names.map (fun _ => i) ∧
      (vinRows (upsertSeq db vin names).1 vin).length = 1 ∧
      ((∀ v ∈ db.vehicles, v.vin ≠ vin) →
        i = (db.nextVehicleId : Int) ∧
        (upsertSeq db vin names).1.vehicles.length = db.vehicles.length + 1 ∧
        (vinRows db vin).length = 0) := by
  cases hfind : db.vehicles.find? (fun w => w.vin == vin) with
  | some v =>
      have hvmem : v ∈ db.vehicles := List.mem_of_find?_eq_some hfind
      have hvvin' := List.find?_some hfind
      have hvvin : (v.vin == vin) = true := hvvin'
      refine ⟨(v.id : Int), ?_, ?_, ?_⟩
      · rw [upsertSeq_found vin v names db hfind]
      · rw [upsertSeq_found vin v names db hfind]
        have hle := vin_filter_len_le_one vin db.vehicles hnd
        have hge : 0 < (db.vehicles.filter (fun w => w.vin == vin)).length :=
          List.length_pos_of_mem (List.mem_filter.mpr ⟨hvmem, hvvin⟩)
        unfold vinRows
        exact Nat.le_antisymm hle hge
      · intro hfresh
        exact absurd (by simpa using hvvin) (hfresh v hvmem)
  | none =>
      cases names with
      | nil => exact absurd rfl hne
      | cons n rest =>
          have hnomatch : ∀ a ∈ db.vehicles, (a.vin == vin) = false := by
            intro a hha
            have := List.find?_eq_none.mp hfind a hha
            simpa using this
          have hfind' :
              (db.vehicles ++ [(⟨db.nextVehicleId, vin, n⟩ : Vehicle)]).find?
                (fun w => w.vin == vin) =
                some (⟨db.nextVehicleId, vin, n⟩ : Vehicle) :=
            find?_append_singleton _ _ db.vehicles hnomatch (by simp)
          refine ⟨(db.nextVehicleId : Int), ?_, ?_, ?_⟩
          · simp only [upsertSeq, add_or_get_vehicle, if_neg Bool.false_ne_true,
              hfind]
            rw [upsertSeq_found vin ⟨db.nextVehicleId, vin, n⟩ rest _ hfind']
            simp
          · simp only [upsertSeq, add_or_get_vehicle, if_neg Bool.false_ne_true,
              hfind]
            rw [upsertSeq_found vin ⟨db.nextVehicleId, vin, n⟩ rest _ hfind']
            unfold vinRows
            simp only [List.filter_append, filter_eq_nil_of _ db.vehicles hnomatch]
            simp
          · intro _
            refine ⟨rfl, ?_, ?_⟩
            · simp only [upsertSeq, add_or_get_vehicle, if_neg Bool.false_ne_true,
                hfind]
              rw [upsertSeq_found vin ⟨db.nextVehicleId, vin, n⟩ rest _ hfind']
              simp
            · unfold vinRows
              rw [filter_eq_nil_of _ db.vehicles hnomatch]
              rfl

/-- Witness for C2: two calls with a fresh VIN both return the first row id
and leave exactly one row with that vin. -/
theorem C2_upsert_vehicle_idempotent_witness :
    (upsertSeq ⟨[], [], [], [], [], 1, 1, 1, 1⟩ "V123" ["carA", "carB"]).2 =
        [(1 : Int), 1] ∧
      (vinRows (upsertSeq ⟨[], [], [], [], [], 1, 1, 1, 1⟩ "V123"
        ["carA", "carB"]).1 "V123").length = 1 := by
  obtain ⟨i, h1, h2, h3⟩ := C2_upsert_vehicle_idempotent
    ⟨[], [], [], [], [], 1, 1, 1, 1⟩ "V123" ["carA", "carB"] (by decide)
    (by decide)
  obtain ⟨hi, _, _⟩ := h3 (by intro v hv; exact absurd hv (List.not_mem_nil v))
  refine ⟨?_, h2⟩
  rw [h1, hi]
  rfl

/-- **C9.** On any storage error `upsertVehicle` does not raise and returns
the sentinel `-1` (leaving the database unchanged); every non-error call
returns a positive row id. -/
theorem C9_upsert_error_sentinel (db : DB) (vin name : String)
    (hids : ∀ v ∈ db.vehicles, 1 ≤ v.id) (hnext : 1 ≤ db.nextVehicleId) :
    ((add_or_get_vehicle db vin name true).2 = -1 ∧
      (add_or_get_vehicle db vin name true).1 = db) ∧
    1 ≤ (add_or_get_vehicle db vin name false).2 := by
  refine ⟨⟨rfl, rfl⟩, ?_⟩
  cases hfind : db.vehicles.find? (fun w => w.vin == vin) with
  | some v =>
      have hvmem : v ∈ db.vehicles := List.mem_of_find?_eq_some hfind
      have := hids v hvmem
      simp only [add_or_get_vehicle, if_neg Bool.false_ne_true, hfind]
      exact_mod_cast this
  | none =>
      simp only [add_or_get_vehicle, if_neg Bool.false_ne_true, hfind]
      exact_mod_cast hnext

/-- Witness for C9 at a concrete one-vehicle database. -/
theorem C9_upsert_error_sentinel_witness :
    (add_or_get_vehicle ⟨[⟨1, "W1", "car"⟩], [], [], [], [], 2, 1, 1, 1⟩
        "X9" "name2" true).2 = -1 ∧
      1 ≤ (add_or_get_vehicle ⟨[⟨1, "W1", "car"⟩], [], [], [], [], 2, 1, 1, 1⟩
        "X9" "name2" false).2 := by
  have h := C9_upsert_error_sentinel
    ⟨[⟨1, "W1", "car"⟩], [], [], [], [], 2, 1, 1, 1⟩ "X9" "name2"
    (by decide) (by decide)
  exact ⟨h.1.1, h.2⟩

/-! ## C7: `get_trip_readings` -/

/-- **C7.** `getTripReadings(tripId)` returns the readings of the given trip
ordered most-recent-first (descending timestamp), capped to at most the
(fixed, default) limit of 200; for every trip with more than 200 readings
exactly 200 rows are returned, and with at most 200 readings all of them are
returned. -/
theorem C7_get_trip_readings_capped (db : DB) (tripId : Nat) :
    List.Sorted tsDesc (get_trip_readings db tripId) ∧
    (get_trip_readings db tripId).length ≤ 200 ∧
    (∀ r ∈ get_trip_readings db tripId, r ∈ db.readings ∧ r.tripId = tripId) ∧
    (200 < (db.readings.filter (fun r => r.tripId == tripId)).length →
      (get_trip_readings db tripId).length = 200) ∧
    ((db.readings.filter (fun r => r.tripId == tripId)).length ≤ 200 →
      (get_trip_readings db tripId).Perm
        (db.readings.filter (fun r => r.tripId == tripId))) := by
  have hsort := List.sorted_insertionSort tsDesc
    (db.readings.filter (fun r => r.tripId == tripId))
  have hperm := List.perm_insertionSort tsDesc
    (db.readings.filter (fun r => r.tripId == tripId))
  have hlen := hperm.length_eq
  refine ⟨?_, ?_, ?_, ?_, ?_⟩
  · exact hsort.sublist (List.take_sublist 200 _)
  · rw [get_trip_readings, List.length_take]
    exact min_le_left _ _
  · intro r hr
    have hr' : r ∈ (db.readings.filter
        (fun r => r.tripId == tripId)).insertionSort tsDesc :=
      (List.take_sublist 200 _).mem hr
    rw [List.mem_insertionSort] at hr'
    have := List.mem_filter.mp hr'
    exact ⟨this.1, by simpa using this.2⟩
  · intro hgt
    rw [get_trip_readings, List.length_take, hlen]
    omega
  · intro hle
    rw [get_trip_readings, List.take_of_length_le (by omega)]
    exact hperm

/-- Witness for C7 on a two-reading trip: sorted output, within the cap, and
(at most 200 readings) a permutation of the whole trip. -/
theorem C7_get_trip_readings_capped_witness :
    (get_trip_readings ⟨[], [], [⟨1, 1, 10, "RPM", "700", none⟩,
        ⟨2, 1, 20, "RPM", "900", none⟩], [], [], 1, 1, 3, 1⟩ 1).length ≤ 200 ∧
      (get_trip_readings ⟨[], [], [⟨1, 1, 10, "RPM", "700", none⟩,
        ⟨2, 1, 20, "RPM", "900", none⟩], [], [], 1, 1, 3, 1⟩ 1).Perm
        ((⟨[], [], [⟨1, 1, 10, "RPM", "700", none⟩,
          ⟨2, 1, 20, "RPM", "900", none⟩], [], [], 1, 1, 3, 1⟩ : DB).readings.filter
          (fun r => r.tripId == 1)) := by
  have h := C7_get_trip_readings_capped ⟨[], [], [⟨1, 1, 10, "RPM", "700", none⟩,
    ⟨2, 1, 20, "RPM", "900", none⟩], [], [], 1, 1, 3, 1⟩ 1
  exact ⟨h.2.1, h.2.2.2.2 (by decide)⟩

/-! ## C5: `export_trip_to_csv` -/

/-- **C5.** `exportTripToDelimitedText` on a trip with zero readings returns
false and writes no file; on a trip with `N > 0` readings it returns true and
writes a file of exactly `N+1` lines: the header line
`timestamp,command,value,unit` followed by one line per reading in ascending
timestamp order (each timestamp rendered through the configured local-time
formatter); on a write failure it returns false. -/
theorem C5_export_trip_lines (db : DB) (tripId : Nat) (fmt : Rat → String) :
    ((db.readings.filter (fun r => r.tripId == tripId)) = [] →
      ∀ ioFailAfter, export_trip_to_csv db tripId fmt ioFailAfter =
        ExportResult.noFile) ∧
    ExportResult.noFile.success = false ∧
    ((db.readings.filter (fun r => r.tripId == tripId)) ≠ [] →
      export_trip_to_csv db tripId fmt none =
        ExportResult.written (csvHeader ::
          ((db.readings.filter (fun r => r.tripId == tripId)).insertionSort
            tsAsc).map (renderReadingRow fmt)) ∧
      (export_trip_to_csv db tripId fmt none).success = true ∧
      (csvHeader :: ((db.readings.filter
          (fun r => r.tripId == tripId)).insertionSort tsAsc).map
          (renderReadingRow fmt)).length =
        (db.readings.filter (fun r => r.tripId == tripId)).length + 1 ∧
      List.Sorted tsAsc
        ((db.readings.filter (fun r => r.tripId == tripId)).insertionSort tsAsc) ∧
      ((db.readings.filter (fun r => r.tripId == tripId)).insertionSort
        tsAsc).Perm (db.readings.filter (fun r => r.tripId == tripId))) ∧
    (∀ k, (export_trip_to_csv db tripId fmt (some k)).success = false) := by
  have hsort := List.sorted_insertionSort tsAsc
    (db.readings.filter (fun r => r.tripId == tripId))
  have hperm := List.perm_insertionSort tsAsc
    (db.readings.filter (fun r => r.tripId == tripId))
  have hlen := hperm.length_eq
  refine ⟨?_, rfl, ?_, ?_⟩
  · intro h ioFailAfter
    simp [export_trip_to_csv, h]
  · intro h
    have hne : ((db.readings.filter
        (fun r => r.tripId == tripId)).insertionSort tsAsc) ≠ [] := by
      intro hnil
      apply h
      have := hlen
      rw [hnil] at this
      exact List.length_eq_zero.mp this.symm
    have hie : ((db.readings.filter
        (fun r => r.tripId == tripId)).insertionSort tsAsc).isEmpty = false := by
      rw [List.isEmpty_eq_false]
      exact hne
    refine ⟨?_, ?_, ?_, hsort, hperm⟩
    · simp [export_trip_to_csv, hie]
    · simp [export_trip_to_csv, hie, ExportResult.success]
    · simp [hlen]
  · intro k
    by_cases hie : ((db.readings.filter
        (fun r => r.tripId == tripId)).insertionSort tsAsc).isEmpty
    · simp [export_trip_to_csv, hie, ExportResult.success]
    · simp [export_trip_to_csv, hie, ExportResult.success]

/-- Witness for C5: a two-reading trip exports a three-line file (header plus
one line per reading) and reports success; the write-failure path reports
failure. -/
theorem C5_export_trip_lines_witness :
    export_trip_to_csv ⟨[], [], [⟨1, 1, 10, "RPM", "700", none⟩,
        ⟨2, 1, 20, "RPM", "900", none⟩], [], [], 1, 1, 3, 1⟩ 1
        (fun _ => "t") none =
      ExportResult.written ["timestamp,command,value,unit",
        "t,RPM,700,", "t,RPM,900,"] ∧
    (export_trip_to_csv ⟨[], [], [⟨1, 1, 10, "RPM", "700", none⟩,
        ⟨2, 1, 20, "RPM", "900", none⟩], [], [], 1, 1, 3, 1⟩ 1
        (fun _ => "t") (some 1)).success = false := by
  have h := C5_export_trip_lines ⟨[], [], [⟨1, 1, 10, "RPM", "700", none⟩,
    ⟨2, 1, 20, "RPM", "900", none⟩], [], [], 1, 1, 3, 1⟩ 1 (fun _ => "t")
  refine ⟨?_, h.2.2.2 1⟩
  have h1 := (h.2.2.1 (by decide)).1
  rw [h1]
  rfl

/-! ## C3 / C4: `prune_old_data` -/

lemma filter_not_add_filter_length {α : Type} (p : α → Prop) [DecidablePred p] :
    ∀ l : List α, (l.filter (fun a => decide (¬ p a))).length +
      (l.filter (fun a => decide (p a))).length = l.length
  | [] => rfl
  | a :: t => by
      have ih := filter_not_add_filter_length p t
      by_cases h : p a <;> simp [List.filter_cons, h, decide_not] at ih ⊢ <;> omega

lemma mem_oldTripIds (db : DB) (cutoff : Rat) (t : Trip) (ht : t ∈ db.trips)
    (h : t.startTime < cutoff) : t.id ∈ oldTripIds db cutoff :=
  List.mem_map_of_mem Trip.id (List.mem_filter.mpr ⟨ht, by simpa using h⟩)

lemma mem_oldTripIds_iff (db : DB) (cutoff : Rat)
    (hnd : (db.trips.map Trip.id).Nodup) (t : Trip) (ht : t ∈ db.trips) :
    t.id ∈ oldTripIds db cutoff ↔ t.startTime < cutoff := by
  constructor
  · intro hmem
    obtain ⟨t', ht', hid⟩ := List.mem_map.mp hmem
    have ht'mem : t' ∈ db.trips := (List.mem_filter.mp ht').1
    have ht'old : t'.startTime < cutoff := by
      have := (List.mem_filter.mp ht').2
      simpa using this
    have : t' = t := nodup_map_inj Trip.id db.trips hnd t' ht'mem t ht hid
    rwa [← this]
  · exact mem_oldTripIds db cutoff t ht

/-- Which committed states `prune_old_data` can produce: on any failed step
the database is unchanged, otherwise all three tables are filtered in one
committed transaction. -/
lemma prune_db_shape (db : DB) (now : Rat) (days : Nat) (failAt : Option Nat) :
    (prune_old_data db now days failAt).1 = db ∨
    (oldTripIds db (cutoffTime now days)).isEmpty = false ∧
    (prune_old_data db now days failAt).1 =
      { db with
        trips := db.trips.filter
          (fun t => decide (t.id ∉ oldTripIds db (cutoffTime now days)))
        readings := db.readings.filter
          (fun r => decide (r.tripId ∉ oldTripIds db (cutoffTime now days)))
        alerts := db.alerts.filter
          (fun a => decide (a.tripId ∉ oldTripIds db (cutoffTime now days))) } := by
  by_cases h0 : failAt = some 0
  · left; simp [prune_old_data, h0]
  by_cases hemp : (oldTripIds db (cutoffTime now days)).isEmpty
  · left; simp [prune_old_data, h0, hemp]
  by_cases h1 : failAt = some 1
  · left; simp [prune_old_data, h0, hemp, h1]
  by_cases h2 : failAt = some 2
  · left; simp [prune_old_data, h0, hemp, h1, h2]
  by_cases h3 : failAt = some 3
  · left; simp [prune_old_data, h0, hemp, h1, h2, h3]
  by_cases h4 : failAt = some 4
  · left; simp [prune_old_data, h0, hemp, h1, h2, h3, h4]
  right
  exact ⟨by simpa using hemp,
    by simp [prune_old_data, h0, hemp, h1, h2, h3, h4]⟩

/-- **C3.** The claim — `pruneOlderThan` is all-or-nothing, on any failure no
row of any table is deleted and no state is reachable where a reading or
alert-event row has been deleted while its parent trip remains — is the
spec's stated intent, but the code violates it: the `except sqlite3.Error`
handler does no rollback, so when the trips DELETE fails (step 3) the
readings and alert-event DELETEs stay pending on the shared connection, and
the next hot-path `log_reading` commit publishes them.  Evaluated on the
concrete 10/40/400-day database: the committed state right after the failed
prune is unchanged, yet after one `log_reading` every reading and alert
event of trips 2 and 3 is gone while trips 2 and 3 themselves remain — the
exact orphan state the claim rules out. -/
theorem C3_prune_missing_rollback_bug :
    (prune_old_data pruneDemoDB 43200000 30 (some 3)).1 = pruneDemoDB ∧
    (prune_then_log_reading pruneDemoDB 43200000 30 (some 3) 1 43210000
        "RPM" "810" none).trips = pruneDemoDB.trips ∧
    (prune_then_log_reading pruneDemoDB 43200000 30 (some 3) 1 43210000
        "RPM" "810" none).readings.filter (fun r => r.tripId == 2) = [] ∧
    pruneDemoDB.readings.filter (fun r => r.tripId == 2) ≠ [] ∧
    (prune_then_log_reading pruneDemoDB 43200000 30 (some 3) 1 43210000
        "RPM" "810" none).alerts.filter (fun a => a.tripId == 2) = [] ∧
    pruneDemoDB.alerts.filter (fun a => a.tripId == 2) ≠ [] := by
  have holds : oldTripIds pruneDemoDB (cutoffTime 43200000 30) = [2, 3] := by
    norm_num [oldTripIds, pruneDemoDB, cutoffTime, List.filter]
  have hpend : prune_old_data_pending pruneDemoDB 43200000 30 (some 3) =
      some { pruneDemoDB with
        readings := [⟨1, 1, 42336100, "RPM", "800", none⟩]
        alerts := [] } := by
    rw [prune_old_data_pending, holds]
    norm_num [pruneDemoDB, List.filter]
  have hcommitted : (prune_old_data pruneDemoDB 43200000 30 (some 3)).1 =
      pruneDemoDB := by
    rw [prune_old_data]
    rw [show oldTripIds pruneDemoDB (cutoffTime 43200000 30) = [2, 3] from holds]
    norm_num
  have hafter : prune_then_log_reading pruneDemoDB 43200000 30 (some 3) 1
      43210000 "RPM" "810" none =
      log_reading { pruneDemoDB with
        readings := [⟨1, 1, 42336100, "RPM", "800", none⟩]
        alerts := [] } 1 43210000 "RPM" "810" none := by
    rw [prune_then_log_reading, hpend]
    rfl
  refine ⟨hcommitted, ?_, ?_, by decide, ?_, by decide⟩
  · rw [hafter]
    rfl
  · rw [hafter]
    rfl
  · rw [hafter]
    rfl

/-- **C4.** `pruneOlderThan(days)` deletes exactly the trips with
`start_time < now - days*86400` together with all their readings and alert
events, leaves every newer trip and its data intact, and returns the pair
(number of trips deleted, number of readings deleted). -/
theorem C4_prune_deletes_exactly (db : DB) (now : Rat) (days : Nat)
    (hnd : (db.trips.map Trip.id).Nodup) :
    (prune_old_data db now days none).1.trips =
      db.trips.filter (fun t => decide (¬ t.startTime < cutoffTime now days)) ∧
    (prune_old_data db now days none).1.readings =
      db.readings.filter
        (fun r => decide (r.tripId ∉ oldTripIds db (cutoffTime now days))) ∧
    (prune_old_data db now days none).1.alerts =
      db.alerts.filter
        (fun a => decide (a.tripId ∉ oldTripIds db (cutoffTime now days))) ∧
    (prune_old_data db now days none).1.vehicles = db.vehicles ∧
    (prune_old_data db now days none).2.1 =
      (db.trips.filter (fun t => decide (t.startTime < cutoffTime now days))).length ∧
    (prune_old_data db now days none).2.2 =
      (db.readings.filter
        (fun r => decide (r.tripId ∈ oldTripIds db (cutoffTime now days)))).length := by
  have hcongr1 :
      db.trips.filter (fun t => decide (t.id ∉ oldTripIds db (cutoffTime now days))) =
        db.trips.filter (fun t => decide (¬ t.startTime < cutoffTime now days)) :=
    List.filter_congr (fun t ht => by
      have := mem_oldTripIds_iff db (cutoffTime now days) hnd t ht
      simp [this])
  have hcongr2 :
      db.trips.filter (fun t => decide (t.id ∈ oldTripIds db (cutoffTime now days))) =
        db.trips.filter (fun t => decide (t.startTime < cutoffTime now days)) :=
    List.filter_congr (fun t ht => by
      have := mem_oldTripIds_iff db (cutoffTime now days) hnd t ht
      simp [this])
  have hsplitT := filter_not_add_filter_length
    (fun t : Trip => t.id ∈ oldTripIds db (cutoffTime now days)) db.trips
  have hsplitR := filter_not_add_filter_length
    (fun r : Reading => r.tripId ∈ oldTripIds db (cutoffTime now days)) db.readings
  by_cases hemp : (oldTripIds db (cutoffTime now days)).isEmpty
  · have holds : oldTripIds db (cutoffTime now days) = [] :=
      List.isEmpty_iff.mp hemp
    have hnone : ∀ t ∈ db.trips, ¬ t.startTime < cutoffTime now days := by
      intro t ht hlt
      have := mem_oldTripIds db (cutoffTime now days) t ht hlt
      rw [holds] at this
      exact absurd this (List.not_mem_nil _)
    have hres : prune_old_data db now days none = (db, 0, 0) := by
      simp [prune_old_data, hemp]
    rw [hres]
    refine ⟨?_, ?_, ?_, rfl, ?_, ?_⟩
    · exact (List.filter_eq_self.mpr (fun t ht => by simp [hnone t ht])).symm
    · exact (List.filter_eq_self.mpr (fun r _ => by simp [holds])).symm
    · exact (List.filter_eq_self.mpr (fun a _ => by simp [holds])).symm
    · rw [filter_eq_nil_of _ db.trips (fun t ht => by simp [hnone t ht])]
      rfl
    · rw [filter_eq_nil_of _ db.readings (fun r _ => by simp [holds])]
      rfl
  · have hres : prune_old_data db now days none =
        ({ db with
          trips := db.trips.filter
            (fun t => decide (t.id ∉ oldTripIds db (cutoffTime now days)))
          readings := db.readings.filter
            (fun r => decide (r.tripId ∉ oldTripIds db (cutoffTime now days)))
          alerts := db.alerts.filter
            (fun a => decide (a.tripId ∉ oldTripIds db (cutoffTime now days))) },
         db.trips.length - (db.trips.filter
           (fun t => decide (t.id ∉ oldTripIds db (cutoffTime now days)))).length,
         db.readings.length - (db.readings.filter
           (fun r => decide (r.tripId ∉ oldTripIds db (cutoffTime now days)))).length) := by
      simp [prune_old_data, hemp]
    rw [hres]
    dsimp only
    refine ⟨hcongr1, rfl, rfl, rfl, ?_, ?_⟩
    · have hlen2 : (db.trips.filter
          (fun t => decide (t.id ∈ oldTripIds db (cutoffTime now days)))).length =
          (db.trips.filter
            (fun t => decide (t.startTime < cutoffTime now days))).length := by
        rw [hcongr2]
      omega
    · omega

/-- Witness for C4: with trips aged 10, 40 and 400 days and `days = 30`,
exactly the two older trips are deleted with their two readings, and only the
10-day trip remains. -/
theorem C4_prune_deletes_exactly_witness :
    (prune_old_data pruneDemoDB 43200000 30 none).2.1 = 2 ∧
    (prune_old_data pruneDemoDB 43200000 30 none).2.2 = 2 ∧
    (prune_old_data pruneDemoDB 43200000 30 none).1.trips =
      [⟨1, 1, 42336000, some 42337000⟩] := by
  have h := C4_prune_deletes_exactly pruneDemoDB 43200000 30 (by decide)
  refine ⟨h.2.2.2.2.1.trans ?_, h.2.2.2.2.2.trans ?_, h.1.trans ?_⟩
  · norm_num [pruneDemoDB, cutoffTime, List.filter]
  · norm_num [pruneDemoDB, cutoffTime, oldTripIds, List.filter, List.map]
  · norm_num [pruneDemoDB, cutoffTime, List.filter]

/-! ## C10: the alert banner hide path -/

/-- **C10.** The alert banner is hidden only when the Evaluator's active-alert
set is empty: the hide path leaves a shown banner shown while any rule id
remains active (in particular after clearing one rule while another remains),
and after `reset()` the set is empty so the banner is hidden. -/
theorem C10_banner_hidden_only_when_empty (A : Finset Nat) (b : Bool)
    (r x : Nat) :
    (A ≠ ∅ → hide_alert_banner A b = b) ∧
    (hide_alert_banner A true = false → A = ∅) ∧
    (r ∈ A → x ∈ A → x ≠ r → hide_alert_banner (A.erase r) true = true) ∧
    alert_manager_reset b = (∅, false) := by
  refine ⟨?_, ?_, ?_, by simp [alert_manager_reset, hide_alert_banner]⟩
  · intro h
    simp [hide_alert_banner, h]
  · intro h
    by_cases he : A = ∅
    · exact he
    · simp [hide_alert_banner, he] at h
  · intro hr hx hxr
    have hne : A.erase r ≠ ∅ := by
      intro he
      have hmem : x ∈ A.erase r := Finset.mem_erase.mpr ⟨hxr, hx⟩
      rw [he] at hmem
      exact absurd hmem (Finset.not_mem_empty x)
    simp [hide_alert_banner, hne]

/-- Witness for C10: clearing rule 1 while rule 2 stays active leaves the
banner shown; reset empties the set and hides the banner. -/
theorem C10_banner_hidden_only_when_empty_witness :
    hide_alert_banner (({1, 2} : Finset Nat).erase 1) true = true ∧
    alert_manager_reset true = ((∅ : Finset Nat), false) := by
  have h := C10_banner_hidden_only_when_empty ({1, 2} : Finset Nat) true 1 2
  exact ⟨h.2.2.1 (by decide) (by decide) (by decide), h.2.2.2⟩

/-! ## C6 / C8: coordinator invariant and the disconnect / failed-connect
postconditions -/

lemma nodup_concat {α : Type} (l : List α) (x : α) (h : l.Nodup)
    (hx : x ∉ l) : (l ++ [x]).Nodup := by
  simp [List.nodup_append]
  exact ⟨h, fun h' => hx h'⟩

lemma end_trip_map_id (db : DB) (tid : Nat) (now : Rat) :
    (end_trip db tid now).trips.map Trip.id = db.trips.map Trip.id := by
  simp only [end_trip, List.map_map]
  refine List.map_congr_left (fun t _ => ?_)
  by_cases h : t.id = tid <;> simp [Function.comp, h]

lemma end_trip_closed (db : DB) (tid : Nat) (now : Rat)
    (hone : ∀ t ∈ db.trips, t.endTime = none → t.id = tid) :
    ∀ t' ∈ (end_trip db tid now).trips, t'.endTime ≠ none := by
  intro t' ht'
  simp only [end_trip, List.mem_map] at ht'
  obtain ⟨t, ht, rfl⟩ := ht'
  by_cases h : t.id = tid
  · simp [h]
  · simp [h]
    intro hopen
    exact absurd (hone t ht hopen) h

lemma foldl_log_alert_keeps (now : Rat) :
    ∀ (l : List AlertEventRow) (d : DB),
      (l.foldl (fun d p => log_alert d p.tripId p.ruleId now) d).trips = d.trips ∧
      (l.foldl (fun d p => log_alert d p.tripId p.ruleId now) d).nextTripId =
        d.nextTripId
  | [], _ => ⟨rfl, rfl⟩
  | p :: t, d => by
      rw [List.foldl_cons]
      exact foldl_log_alert_keeps now t (log_alert d p.tripId p.ruleId now)

/-- The invariant survives `toggle_trip_logging`, provided a trip is only
ever started while connected (the trip button's enablement). -/
lemma inv_toggle (s : CoordState) (now : Rat) (hInv : Inv s)
    (hcon : s.isLoggingTrip = false → s.isConnected = true) :
    Inv (toggle_trip_logging s now) := by
  obtain ⟨h1, h2, h3, h4⟩ := hInv
  cases hv : s.currentVehicleId with
  | none =>
      simp only [toggle_trip_logging, hv]
      exact ⟨h1, h2, h3, h4⟩
  | some vid =>
      by_cases hlog : s.isLoggingTrip = false
      · -- turning logging on: insert one fresh open trip and point at it
        simp only [toggle_trip_logging, hv, hlog, if_pos, start_trip]
        refine ⟨fun _ => ⟨hcon hlog, by simp⟩, ?_, ?_, ?_⟩
        · intro t ht hopen
          have ht' : t ∈ s.db.trips ++ [(⟨s.db.nextTripId, vid, now, none⟩ : Trip)] := ht
          rcases List.mem_append.mp ht' with hold | hnew
          · have := (h2 t hold hopen).1
            rw [hlog] at this
            exact absurd this (by simp)
          · have heq : t = ⟨s.db.nextTripId, vid, now, none⟩ :=
              List.mem_singleton.mp hnew
            subst heq
            exact ⟨rfl, rfl⟩
        · show ((s.db.trips ++ [(⟨s.db.nextTripId, vid, now, none⟩ : Trip)]).map
            Trip.id).Nodup
          rw [List.map_append]
          refine nodup_concat _ _ h3 ?_
          intro hmem
          obtain ⟨t, ht, hid⟩ := List.mem_map.mp hmem
          have hid' : t.id = s.db.nextTripId := hid
          have := h4 t ht
          omega
        · intro t ht
          have ht' : t ∈ s.db.trips ++ [(⟨s.db.nextTripId, vid, now, none⟩ : Trip)] := ht
          show t.id < s.db.nextTripId + 1
          rcases List.mem_append.mp ht' with hold | hnew
          · have := h4 t hold
            omega
          · have heq : t = ⟨s.db.nextTripId, vid, now, none⟩ :=
              List.mem_singleton.mp hnew
            subst heq
            show s.db.nextTripId < s.db.nextTripId + 1
            omega
      · -- turning logging off: the single open trip (if any) gets closed
        have hlog' : s.isLoggingTrip = true := by
          cases h : s.isLoggingTrip
          · exact absurd h hlog
          · rfl
        cases htid : s.currentTripId with
        | some tid =>
            simp only [toggle_trip_logging, hv, hlog', htid]
            refine ⟨fun hfalse => absurd hfalse (by simp), ?_, ?_, ?_⟩
            · intro t ht hopen
              have ht' : t ∈ (end_trip s.db tid now).trips := ht
              have hclosed : ∀ t'' ∈ (end_trip s.db tid now).trips,
                  t''.endTime ≠ none := by
                refine end_trip_closed s.db tid now ?_
                intro t' htm hopen'
                have := (h2 t' htm hopen').2
                rw [htid] at this
                exact (Option.some.injEq _ _).mp this.symm
              exact absurd hopen (hclosed t ht')
            · show ((end_trip s.db tid now).trips.map Trip.id).Nodup
              rw [end_trip_map_id]
              exact h3
            · intro t ht
              have ht' : t ∈ (end_trip s.db tid now).trips := ht
              show t.id < s.db.nextTripId
              simp only [end_trip, List.mem_map] at ht'
              obtain ⟨t', ht'', rfl⟩ := ht'
              have := h4 t' ht''
              by_cases h : t'.id = tid <;> simp [h] <;> omega
        | none =>
            simp only [toggle_trip_logging, hv, hlog', htid]
            refine ⟨fun hfalse => absurd hfalse (by simp), ?_, h3, h4⟩
            intro t ht hopen
            have := (h2 t ht hopen).2
            rw [htid] at this
            exact absurd this (by simp)

/-- Turning logging off closes every open trip and keeps ids well-formed. -/
lemma toggle_off_state (s : CoordState) (now : Rat) (hInv : Inv s)
    (hl : s.isLoggingTrip = true) (vid : Nat)
    (hv : s.currentVehicleId = some vid) :
    (toggle_trip_logging s now).isLoggingTrip = false ∧
    (∀ t ∈ (toggle_trip_logging s now).db.trips, t.endTime ≠ none) ∧
    ((toggle_trip_logging s now).db.trips.map Trip.id).Nodup ∧
    (∀ t ∈ (toggle_trip_logging s now).db.trips,
      t.id < (toggle_trip_logging s now).db.nextTripId) := by
  obtain ⟨h1, h2, h3, h4⟩ := hInv
  cases htid : s.currentTripId with
  | some tid =>
      simp only [toggle_trip_logging, hv, hl, htid]
      refine ⟨rfl, ?_, ?_, ?_⟩
      · refine end_trip_closed s.db tid now ?_
        intro t' htm hopen'
        have := (h2 t' htm hopen').2
        rw [htid] at this
        exact (Option.some.injEq _ _).mp this.symm
      · show ((end_trip s.db tid now).trips.map Trip.id).Nodup
        rw [end_trip_map_id]
        exact h3
      · intro t ht
        have ht' : t ∈ (end_trip s.db tid now).trips := ht
        show t.id < s.db.nextTripId
        simp only [end_trip, List.mem_map] at ht'
        obtain ⟨t', ht'', rfl⟩ := ht'
        have := h4 t' ht''
        by_cases h : t'.id = tid <;> simp [h] <;> omega
  | none =>
      simp only [toggle_trip_logging, hv, hl, htid]
      refine ⟨rfl, ?_, h3, h4⟩
      intro t ht hopen
      have := (h2 t ht hopen).2
      rw [htid] at this
      exact absurd this (by simp)

/-- After `disconnect_from_obd` the trip flag is off, every stored trip is
closed, and trip ids stay well-formed. -/
lemma disconnect_state (s : CoordState) (now : Rat) (hInv : Inv s) :
    (disconnect_from_obd s now).isLoggingTrip = false ∧
    (∀ t ∈ (disconnect_from_obd s now).db.trips, t.endTime ≠ none) ∧
    ((disconnect_from_obd s now).db.trips.map Trip.id).Nodup ∧
    (∀ t ∈ (disconnect_from_obd s now).db.trips,
      t.id < (disconnect_from_obd s now).db.nextTripId) := by
  by_cases hl : s.isLoggingTrip = true
  · have hveh := (hInv.1 hl).2
    cases hv : s.currentVehicleId with
    | none => exact absurd hv hveh
    | some vid =>
        have hInv₁ : Inv { s with logUpdateJob := false } := hInv
        have hstep := toggle_off_state { s with logUpdateJob := false } now hInv₁
          hl vid hv
        have hdef : disconnect_from_obd s now =
            { toggle_trip_logging { s with logUpdateJob := false } now with
              hasConnection := false
              isConnected := false
              isConnecting := false
              watched := []
              activeAlerts := ∅ } := by
          simp [disconnect_from_obd, hl]
        rw [hdef]
        exact hstep
  · have hl' : s.isLoggingTrip = false := by
      cases h : s.isLoggingTrip
      · rfl
      · exact absurd h hl
    have hdef : disconnect_from_obd s now =
        { { s with logUpdateJob := false } with
          hasConnection := false
          isConnected := false
          isConnecting := false
          watched := []
          activeAlerts := ∅ } := by
      simp [disconnect_from_obd, hl']
    rw [hdef]
    refine ⟨hl', ?_, hInv.2.2.1, hInv.2.2.2⟩
    intro t ht hopen
    have := (hInv.2.1 t ht hopen).1
    rw [hl'] at this
    exact absurd this (by simp)

lemma inv_disconnect (s : CoordState) (now : Rat) (hInv : Inv s) :
    Inv (disconnect_from_obd s now) := by
  obtain ⟨hlog, hclosed, hnd, hbound⟩ := disconnect_state s now hInv
  refine ⟨fun h => ?_, fun t ht ho => absurd ho (hclosed t ht), hnd, hbound⟩
  rw [hlog] at h
  exact absurd h (by simp)

lemma add_or_get_keeps (db : DB) (vin name : String) (fail : Bool) :
    (add_or_get_vehicle db vin name fail).1.trips = db.trips ∧
    (add_or_get_vehicle db vin name fail).1.nextTripId = db.nextTripId := by
  cases fail with
  | true => exact ⟨rfl, rfl⟩
  | false =>
      cases hfind : db.vehicles.find? (fun v => v.vin == vin) with
      | some v =>
          simp only [add_or_get_vehicle, hfind]
          exact ⟨rfl, rfl⟩
      | none =>
          simp only [add_or_get_vehicle, hfind]
          exact ⟨rfl, rfl⟩

/-- Replacing the database by one with the same trips table (and id counter)
and replacing the active alerts preserves the invariant. -/
lemma inv_db_surgery (s : CoordState) (db' : DB) (A : Finset Nat)
    (htrips : db'.trips = s.db.trips)
    (hnext : db'.nextTripId = s.db.nextTripId) (hInv : Inv s) :
    Inv { s with db := db', activeAlerts := A } := by
  obtain ⟨h1, h2, h3, h4⟩ := hInv
  refine ⟨h1, ?_, ?_, ?_⟩
  · intro t ht ho
    have ht' : t ∈ db'.trips := ht
    rw [htrips] at ht'
    exact h2 t ht' ho
  · show (db'.trips.map Trip.id).Nodup
    rw [htrips]
    exact h3
  · intro t ht
    have ht' : t ∈ db'.trips := ht
    rw [htrips] at ht'
    show t.id < db'.nextTripId
    rw [hnext]
    exact h4 t ht'

lemma inv_reading (s : CoordState) (cmd : String) (value : Option Rat)
    (unit : Option String) (now : Rat) (hInv : Inv s) :
    Inv (on_reading s cmd value unit now) := by
  cases value with
  | none => exact hInv
  | some v =>
      by_cases hl : s.isLoggingTrip = true
      · cases htid : s.currentTripId with
        | some tid =>
            have hred : on_reading s cmd (some v) unit now =
                { s with
                  db := ((check_value ⟨s.rules, s.activeAlerts⟩ true tid cmd
                      (some v)).2.2).foldl
                    (fun d p => log_alert d p.tripId p.ruleId now)
                    (log_reading s.db tid now cmd (toString v) unit)
                  activeAlerts := (check_value ⟨s.rules, s.activeAlerts⟩ true tid
                    cmd (some v)).1.activeAlerts } := by
              simp [on_reading, hl, htid]
            rw [hred]
            refine inv_db_surgery s _ _ ?_ ?_ hInv
            · rw [(foldl_log_alert_keeps now _ _).1]
              rfl
            · rw [(foldl_log_alert_keeps now _ _).2]
              rfl
        | none =>
            have hred : on_reading s cmd (some v) unit now =
                { s with
                  db := ((check_value ⟨s.rules, s.activeAlerts⟩ true 0 cmd
                      (some v)).2.2).foldl
                    (fun d p => log_alert d p.tripId p.ruleId now) s.db
                  activeAlerts := (check_value ⟨s.rules, s.activeAlerts⟩ true 0
                    cmd (some v)).1.activeAlerts } := by
              simp [on_reading, hl, htid]
            rw [hred]
            refine inv_db_surgery s _ _ ?_ ?_ hInv
            · rw [(foldl_log_alert_keeps now _ _).1]
            · rw [(foldl_log_alert_keeps now _ _).2]
      · have hl' : s.isLoggingTrip = false := by
          cases h : s.isLoggingTrip
          · rfl
          · exact absurd h hl
        have hred : on_reading s cmd (some v) unit now =
            { s with
              db := ((check_value ⟨s.rules, s.activeAlerts⟩ false
                  (s.currentTripId.getD 0) cmd (some v)).2.2).foldl
                (fun d p => log_alert d p.tripId p.ruleId now) s.db
              activeAlerts := (check_value ⟨s.rules, s.activeAlerts⟩ false
                (s.currentTripId.getD 0) cmd (some v)).1.activeAlerts } := by
          simp [on_reading, hl']
        rw [hred]
        refine inv_db_surgery s _ _ ?_ ?_ hInv
        · rw [(foldl_log_alert_keeps now _ _).1]
        · rw [(foldl_log_alert_keeps now _ _).2]

lemma inv_select (s : CoordState) (vid : Nat) (hInv : Inv s) :
    Inv (stepFn s (Step.selectVehicle vid)) := by
  by_cases hg : (s.isConnected || s.isConnecting) = true
  · simp only [stepFn, hg, if_true]
    exact hInv
  · have hg' : (s.isConnected || s.isConnecting) = false := by
      cases h : (s.isConnected || s.isConnecting)
      · rfl
      · exact absurd h hg
    by_cases hany : (s.db.vehicles.any (fun v => v.id == vid)) = true
    · simp only [stepFn, hg', hany, if_true, Bool.false_eq_true, if_false]
      obtain ⟨h1, h2, h3, h4⟩ := hInv
      exact ⟨fun h => ⟨(h1 h).1, by simp⟩, h2, h3, h4⟩
    · have hany' : (s.db.vehicles.any (fun v => v.id == vid)) = false := by
        cases h : (s.db.vehicles.any (fun v => v.id == vid))
        · rfl
        · exact absurd h hany
      simp only [stepFn, hg', hany', Bool.false_eq_true, if_false]
      exact hInv

lemma inv_connect_fail (s : CoordState) (connAssigned : Bool) (hInv : Inv s) :
    Inv (stepFn s (Step.connectFail connAssigned)) := by
  by_cases hg : (s.isConnecting || s.isConnected) = true
  · simp only [stepFn, hg, if_true]
    exact hInv
  · have hg' : (s.isConnecting || s.isConnected) = false := by
      cases h : (s.isConnecting || s.isConnected)
      · rfl
      · exact absurd h hg
    simp only [stepFn, hg', Bool.false_eq_true, if_false]
    exact hInv

lemma inv_on_success (s : CoordState) (vinFound : Option String)
    (supported : List String) (now : Rat) (hInv : Inv s)
    (hconn : s.isConnected = true) :
    Inv (on_successful_connection s vinFound supported now) := by
  cases vinFound with
  | none =>
      cases hv : s.currentVehicleId with
      | some vid =>
          simp only [on_successful_connection, hv]
          refine inv_toggle _ now ?_ ?_
          · rw [← hv]
            exact hInv
          · intro _
            exact hconn
      | none =>
          simp only [on_successful_connection, hv]
          rw [← hv]
          exact hInv
  | some vin =>
      have hkeep := add_or_get_keeps s.db vin ("Vehicle-" ++ vin.takeRight 4) false
      simp only [on_successful_connection]
      refine inv_toggle _ now ?_ ?_
      · obtain ⟨h1, h2, h3, h4⟩ := hInv
        refine ⟨fun h => ⟨(h1 h).1, by simp⟩, ?_, ?_, ?_⟩
        · intro t ht ho
          have ht' : t ∈ (add_or_get_vehicle s.db vin
              ("Vehicle-" ++ vin.takeRight 4) false).1.trips := ht
          rw [hkeep.1] at ht'
          exact h2 t ht' ho
        · show ((add_or_get_vehicle s.db vin
            ("Vehicle-" ++ vin.takeRight 4) false).1.trips.map Trip.id).Nodup
          rw [hkeep.1]
          exact h3
        · intro t ht
          have ht' : t ∈ (add_or_get_vehicle s.db vin
              ("Vehicle-" ++ vin.takeRight 4) false).1.trips := ht
          rw [hkeep.1] at ht'
          show t.id < (add_or_get_vehicle s.db vin
            ("Vehicle-" ++ vin.takeRight 4) false).1.nextTripId
          rw [hkeep.2]
          exact h4 t ht'
      · intro _
        exact hconn

lemma inv_connect_ok (s : CoordState) (vinFound : Option String)
    (supported : List String) (now : Rat) (hInv : Inv s) :
    Inv (stepFn s (Step.connectOk vinFound supported now)) := by
  by_cases hg : (s.isConnecting || s.isConnected) = true
  · simp only [stepFn, hg, if_true]
    exact hInv
  · have hg' : (s.isConnecting || s.isConnected) = false := by
      cases h : (s.isConnecting || s.isConnected)
      · rfl
      · exact absurd h hg
    have hcf : s.isConnected = false := by
      cases h : s.isConnected
      · rfl
      · rw [h] at hg'
        simp at hg'
    have hlogf : s.isLoggingTrip = false := by
      cases h : s.isLoggingTrip
      · rfl
      · have := (hInv.1 h).1
        rw [hcf] at this
        exact absurd this (by simp)
    have hnoopen : ∀ t ∈ s.db.trips, t.endTime ≠ none := by
      intro t ht ho
      have := (hInv.2.1 t ht ho).1
      rw [hlogf] at this
      exact absurd this (by simp)
    simp only [stepFn, hg', Bool.false_eq_true, if_false]
    refine inv_on_success _ vinFound supported now ?_ rfl
    exact ⟨fun h => by rw [hlogf] at h; exact absurd h (by simp),
      fun t ht ho => absurd ho (hnoopen t ht), hInv.2.2.1, hInv.2.2.2⟩

lemma inv_onHide (s : CoordState) (now : Rat) (hInv : Inv s) :
    Inv (stepFn s (Step.onHide now)) := by
  by_cases hl : s.isLoggingTrip = true
  · have hred : stepFn s (Step.onHide now) =
        disconnect_from_obd
          (toggle_trip_logging { s with logUpdateJob := false } now) now := by
      simp [stepFn, hl]
    rw [hred]
    refine inv_disconnect _ now ?_
    refine inv_toggle _ now hInv ?_
    intro hf
    have hf' : s.isLoggingTrip = false := hf
    rw [hl] at hf'
    exact absurd hf' (by simp)
  · have hl' : s.isLoggingTrip = false := by
      cases h : s.isLoggingTrip
      · rfl
      · exact absurd h hl
    have hred : stepFn s (Step.onHide now) =
        disconnect_from_obd { s with logUpdateJob := false } now := by
      simp [stepFn, hl']
    rw [hred]
    exact inv_disconnect _ now hInv

lemma inv_prune (s : CoordState) (now : Rat) (days : Nat)
    (failAt : Option Nat) (hInv : Inv s) :
    Inv (stepFn s (Step.pruneData now days failAt)) := by
  show Inv { s with db := (prune_old_data s.db now days failAt).1 }
  rcases prune_db_shape s.db now days failAt with hdb | ⟨_, hdb⟩
  · rw [hdb]
    exact hInv
  · rw [hdb]
    obtain ⟨h1, h2, h3, h4⟩ := hInv
    refine ⟨h1, ?_, ?_, ?_⟩
    · intro t ht ho
      have ht' : t ∈ s.db.trips.filter
          (fun t => decide (t.id ∉ oldTripIds s.db (cutoffTime now days))) := ht
      exact h2 t (List.mem_filter.mp ht').1 ho
    · show ((s.db.trips.filter
        (fun t => decide (t.id ∉ oldTripIds s.db (cutoffTime now days)))).map
          Trip.id).Nodup
      exact List.Nodup.sublist ((List.filter_sublist _).map Trip.id) h3
    · intro t ht
      have ht' : t ∈ s.db.trips.filter
          (fun t => decide (t.id ∉ oldTripIds s.db (cutoffTime now days))) := ht
      show t.id < s.db.nextTripId
      exact h4 t (List.mem_filter.mp ht').1

lemma inv_toggle_step (s : CoordState) (now : Rat) (hInv : Inv s) :
    Inv (stepFn s (Step.toggleTrip now)) := by
  by_cases hg : ((s.isConnected && !s.isConnecting) || s.isLoggingTrip) = true
  · simp only [stepFn, hg, if_true]
    refine inv_toggle s now hInv ?_
    intro hlf
    rw [hlf] at hg
    simp at hg
    exact hg.1
  · have hg' : ((s.isConnected && !s.isConnecting) || s.isLoggingTrip) = false := by
      cases h : ((s.isConnected && !s.isConnecting) || s.isLoggingTrip)
      · rfl
      · exact absurd h hg
    simp only [stepFn, hg', Bool.false_eq_true, if_false]
    exact hInv

/-- Every reachable coordinator state satisfies the invariant. -/
lemma reachable_inv (db0 : DB) (s : CoordState) (h : Reachable db0 s) :
    Inv s := by
  induction h with
  | init hclosed hnd hb =>
      refine ⟨fun hf => ?_, fun t ht ho => absurd ho (hclosed t ht), hnd, hb⟩
      exact absurd (show False from by simp [initState] at hf) id
  | step st hr ih =>
      cases st with
      | selectVehicle vid => exact inv_select _ vid ih
      | connectOk vf sup now => exact inv_connect_ok _ vf sup now ih
      | connectFail ca => exact inv_connect_fail _ ca ih
      | toggleTrip now => exact inv_toggle_step _ now ih
      | disconnect now => exact inv_disconnect _ now ih
      | reading cmd v u now => exact inv_reading _ cmd v u now ih
      | pruneData now days f => exact inv_prune _ now days f ih
      | onHide now => exact inv_onHide _ now ih

/-- **C6.** For every reachable Coordinator state, after `disconnect()`
completes the trip flag is off, the trip started by the Coordinator has been
ended in the Store (no open trip remains), all live-update subscriptions are
cleared, the underlying connection is closed, and the Alert Evaluator's
active set is empty; a disconnect never leaves the current trip open past the
disconnect. -/
theorem C6_disconnect_ends_everything (db0 : DB) (s : CoordState) (now : Rat)
    (h : Reachable db0 s) :
    (stepFn s (Step.disconnect now)).isLoggingTrip = false ∧
    (stepFn s (Step.disconnect now)).isConnected = false ∧
    (stepFn s (Step.disconnect now)).isConnecting = false ∧
    (stepFn s (Step.disconnect now)).hasConnection = false ∧
    (stepFn s (Step.disconnect now)).watched = [] ∧
    (stepFn s (Step.disconnect now)).activeAlerts = ∅ ∧
    (∀ t ∈ (stepFn s (Step.disconnect now)).db.trips, t.endTime ≠ none) ∧
    (∀ tid, s.currentTripId = some tid →
      ∀ t ∈ (stepFn s (Step.disconnect now)).db.trips,
        t.id = tid → t.endTime ≠ none) := by
  have hInv := reachable_inv db0 s h
  have hds := disconnect_state s now hInv
  exact ⟨hds.1, rfl, rfl, rfl, rfl, rfl, hds.2.1,
    fun tid _ t ht _ => hds.2.1 t ht⟩

/-- Witness for C6: select the vehicle, connect (which auto-starts a trip),
then disconnect; the flags are cleared and the active set is empty. -/
theorem C6_disconnect_ends_everything_witness :
    (stepFn (stepFn (stepFn (initState coordDemoDB) (Step.selectVehicle 1))
        (Step.connectOk none ["RPM"] 100)) (Step.disconnect 200)).isLoggingTrip =
      false ∧
    (stepFn (stepFn (stepFn (initState coordDemoDB) (Step.selectVehicle 1))
        (Step.connectOk none ["RPM"] 100)) (Step.disconnect 200)).activeAlerts =
      ∅ ∧
    (stepFn (stepFn (stepFn (initState coordDemoDB) (Step.selectVehicle 1))
        (Step.connectOk none ["RPM"] 100)) (Step.disconnect 200)).isConnected =
      false := by
  have hr : Reachable coordDemoDB
      (stepFn (stepFn (initState coordDemoDB) (Step.selectVehicle 1))
        (Step.connectOk none ["RPM"] 100)) :=
    Reachable.step (Step.connectOk none ["RPM"] 100)
      (Reachable.step (Step.selectVehicle 1)
        (Reachable.init (by decide) (by decide) (by decide)))
  have h := C6_disconnect_ends_everything coordDemoDB _ 200 hr
  exact ⟨h.1, h.2.2.2.2.2.1, h.2.1⟩

/-- **C8.** A `connect(port)` attempt that fails or times out is caught:
from every reachable state that is neither connected nor connecting, the
failed attempt leaves the Coordinator Disconnected (not connected, not
connecting), and no open trip remains in the Store. -/
theorem C8_connect_failure_disconnected (db0 : DB) (s : CoordState)
    (connAssigned : Bool) (h : Reachable db0 s)
    (hnc : s.isConnected = false) (hng : s.isConnecting = false) :
    (stepFn s (Step.connectFail connAssigned)).isConnected = false ∧
    (stepFn s (Step.connectFail connAssigned)).isConnecting = false ∧
    (stepFn s (Step.connectFail connAssigned)).isLoggingTrip = false ∧
    (∀ t ∈ (stepFn s (Step.connectFail connAssigned)).db.trips,
      t.endTime ≠ none) := by
  have hInv := reachable_inv db0 s h
  have hg : (s.isConnecting || s.isConnected) = false := by
    rw [hnc, hng]
    rfl
  have hred : stepFn s (Step.connectFail connAssigned) =
      { s with isConnecting := false, hasConnection := connAssigned } := by
    simp [stepFn, hg]
  have hlogf : s.isLoggingTrip = false := by
    cases hb : s.isLoggingTrip
    · rfl
    · have := (hInv.1 hb).1
      rw [hnc] at this
      exact absurd this (by simp)
  rw [hred]
  refine ⟨hnc, rfl, hlogf, ?_⟩
  intro t ht ho
  have := (hInv.2.1 t ht ho).1
  rw [hlogf] at this
  exact absurd this (by simp)

/-- Witness for C8: a failed connect from the freshly selected (disconnected)
state leaves the coordinator disconnected with no logging trip. -/
theorem C8_connect_failure_disconnected_witness :
    (stepFn (stepFn (initState coordDemoDB) (Step.selectVehicle 1))
        (Step.connectFail true)).isConnected = false ∧
    (stepFn (stepFn (initState coordDemoDB) (Step.selectVehicle 1))
        (Step.connectFail true)).isConnecting = false ∧
    (stepFn (stepFn (initState coordDemoDB) (Step.selectVehicle 1))
        (Step.connectFail true)).isLoggingTrip = false := by
  have hr : Reachable coordDemoDB
      (stepFn (initState coordDemoDB) (Step.selectVehicle 1)) :=
    Reachable.step (Step.selectVehicle 1)
      (Reachable.init (by decide) (by decide) (by decide))
  have h := C8_connect_failure_disconnected coordDemoDB _ true hr rfl rfl
  exact ⟨h.1, h.2.1, h.2.2.1⟩

end SBC
